import Mathlib

/-!
Verification development for the swagger2idl repository: a shallow embedding
of the schema lowering engine (converter/converter.go, converter/thrift_converter.go),
the naming utilities (utils/utils.go and the proto-side utils file), and the two
serializers (generate/proto_generate.go, generate/thrift_generate.go), together
with theorems settling the frozen claims about them.

Modelling conventions:
  - Go maps are embedded as association lists; the list order represents the
    (unspecified) iteration order of one concrete run.
  - Go nil slices and maps versus empty ones are distinguished with Option where
    the source distinguishes them (nil checks).
  - Fallible code returns Except String; a Go panic (nil dereference or
    out-of-range index) is modelled as an error/none outcome.
  - Option values and enum values are modelled at String, the only payload kind
    the embedded code paths construct.
  - Strings are manipulated through their character lists; the repository only
    feeds ASCII identifiers through these helpers, for which byte-level and
    character-level processing agree.
-/

/-! ## String utilities (utils/utils.go and the proto-side utils file) -/

def isGoCap (c : Char) : Bool := 'A' ≤ c && c ≤ 'Z'

def isGoLow (c : Char) : Bool := 'a' ≤ c && c ≤ 'z'

def isGoNum (c : Char) : Bool := '0' ≤ c && c ≤ '9'

def goLowerChar (c : Char) : Char := if isGoCap c then Char.ofNat (c.toNat + 32) else c

def goUpperChar (c : Char) : Char := if isGoLow c then Char.ofNat (c.toNat - 32) else c

def isSpaceChar (c : Char) : Bool := c = ' ' || c = '\t' || c = '\n' || c = '\r'

/-- strings.ReplaceAll for a single-character pattern, the only shape the
repository uses. -/
def replaceChar (s : String) (a b : Char) : String :=
  String.mk (s.data.map (fun c => if c = a then b else c))

/-- strings.TrimSpace. -/
def goTrimSpace (s : String) : String :=
  String.mk (((s.data.dropWhile isSpaceChar).reverse.dropWhile isSpaceChar).reverse)

/-- utils.ToUpperFirstLetter: uppercase the first character of the string. -/
def ToUpperFirstLetter (s : String) : String :=
  match s.data with
  | [] => s
  | c :: cs => String.mk (goUpperChar c :: cs)

/-- utils.ToUpperCase (utils/utils.go): identical body to ToUpperFirstLetter. -/
def ToUpperCase (s : String) : String :=
  match s.data with
  | [] => s
  | c :: cs => String.mk (goUpperChar c :: cs)

/-- utils.FormatNaming: replace every "/" and "-" with "_". -/
def FormatNaming (s : String) : String :=
  replaceChar (replaceChar s '/' '_') '-' '_'

def isGoIdentChar (c : Char) : Bool :=
  isGoCap c || isGoLow c || isGoNum c || c = '_'

/-- utils.FormatStr: replace space, "/" and "-" with "_", then drop every
character outside [a-zA-Z0-9_]. -/
def FormatStr (s : String) : String :=
  let t := replaceChar (replaceChar (replaceChar s ' ' '_') '/' '_') '-' '_'
  String.mk (t.data.filter isGoIdentChar)

/-- Modelled from the spec: utils.ToPascaleCase delegates to strcase.ToCamel from
the external iancoleman/strcase library, which is not part of this repository.
Per the naming-policy contract (spec section 4.1) the delimiters space, "_", "-"
and "." become word boundaries whose following letter is uppercased and which
are themselves dropped; other non-alphanumeric characters are dropped without
starting a new word; a digit starts a new word for a following letter; the
first letter is uppercased. -/
def toCamelChars : List Char → Bool → List Char
  | [], _ => []
  | c :: cs, capNext =>
    if isGoCap c then c :: toCamelChars cs false
    else if isGoLow c then
      (if capNext then goUpperChar c else c) :: toCamelChars cs false
    else if isGoNum c then c :: toCamelChars cs true
    else toCamelChars cs (c = '_' || c = ' ' || c = '-' || c = '.')

/-- Modelled from the spec: strcase.ToCamel with initial uppercasing (see
toCamelChars); the library call is external to the repository. -/
def toCamel (s : String) : String :=
  String.mk (toCamelChars (goTrimSpace s).data true)

/-- utils.ToPascaleCase: strcase.ToCamel followed by ToUpperFirstLetter. -/
def ToPascaleCase (s : String) : String :=
  ToUpperFirstLetter (toCamel s)

/-- Split a character list at a separator character (strings.Split). -/
def splitOnCharAux (sep : Char) : List Char → List Char → List String
  | [], acc => [String.mk acc.reverse]
  | c :: cs, acc =>
    if c = sep then String.mk acc.reverse :: splitOnCharAux sep cs []
    else splitOnCharAux sep cs (c :: acc)

def splitOnChar (s : String) (sep : Char) : List String :=
  splitOnCharAux sep s.data []

/-- utils.ExtractMessageNameFromRef: last "/"-separated component. -/
def ExtractMessageNameFromRef (ref : String) : String :=
  (splitOnChar ref '/').getLastD ("")

def goToLower (s : String) : String := String.mk (s.data.map goLowerChar)

/-- strings.Title(strings.ToLower(m)) as used on HTTP verbs: lowercase, then
uppercase the first letter of each space-separated word. -/
def goTitleLower (s : String) : String :=
  String.intercalate (" ") (((splitOnChar (goToLower s) ' ')).map ToUpperFirstLetter)

/-- utils.ToScreamingDelimited, specialised to ignore = "" as the repository
always calls it: the byte loop of utils/utils.go turned into a recursion that
carries the previous original character. -/
def toScreamingDelimitedAux (delim : Char) (screaming : Bool) :
    Option Char → List Char → List Char
  | _, [] => []
  | prev, c :: rest =>
    let vIsCap := isGoCap c
    let vIsLow := isGoLow c
    let v := if vIsLow && screaming then goUpperChar c
             else if vIsCap && !screaming then goLowerChar c else c
    let vIsNum := isGoNum v
    let prevIsCap := match prev with
      | some p => isGoCap p
      | none => false
    let rest2 := toScreamingDelimitedAux delim screaming (some c) rest
    match rest.head? with
    | some next =>
      let nextIsCap := isGoCap next
      let nextIsLow := isGoLow next
      let nextIsNum := isGoNum next
      let cond := (vIsCap && (nextIsLow || nextIsNum)) ||
                  (vIsLow && (nextIsCap || nextIsNum)) ||
                  (vIsNum && (nextIsCap || nextIsLow))
      let pre : List Char :=
        if cond && vIsCap && nextIsLow && prevIsCap then [delim] else []
      if cond && !(vIsLow && nextIsNum) && !(vIsCap && nextIsNum) then
        pre ++ v :: (if vIsLow || vIsNum || nextIsNum then [delim] else []) ++ rest2
      else
        pre ++ (if v = ' ' || v = '_' || v = '-' || v = '.' then [delim] else [v]) ++ rest2
    | none =>
      (if v = ' ' || v = '_' || v = '-' || v = '.' then [delim] else [v]) ++ rest2

/-- utils.ToSnake via ToDelimited(s, '_'). -/
def ToSnake (s : String) : String :=
  String.mk (toScreamingDelimitedAux '_' false none (goTrimSpace s).data)

/-- utils.ToSnakeCase (utils/utils.go): FormatStr then ToSnake. -/
def ToSnakeCase (s : String) : String :=
  ToSnake (FormatStr s)

/-- Go fmt %q on the plain identifier strings produced here: wrap in quotes. -/
def goQuote (s : String) : String := "\"" ++ s ++ "\""

/-- strconv.Atoi succeeds: an optional sign followed by at least one digit. -/
def goAtoiOk (s : String) : Bool :=
  match s.data with
  | [] => false
  | '-' :: rest => !rest.isEmpty && rest.all isGoNum
  | '+' :: rest => !rest.isEmpty && rest.all isGoNum
  | l => l.all isGoNum

def goToUpper (s : String) : String := String.mk (s.data.map goUpperChar)

/-! ## IR model (protobuf package, reconstructed from its uses in
converter/converter.go and generate/proto_generate.go; thrift package from the
thrift model file) -/

/-- protobuf.Option and thrift.Option: a named option; the value kinds produced
by the embedded code paths are strings (already %q-quoted where Go quotes). -/
structure IdlOption where
  name : String
  value : String
deriving DecidableEq

structure ProtoField where
  name : String
  type : String
  repeated : Bool := false
  description : String := ""
  options : List IdlOption := []
deriving DecidableEq

structure ProtoEnumValue where
  index : Nat
  value : String
deriving DecidableEq

structure ProtoEnum where
  name : String
  values : List ProtoEnumValue := []
  options : List IdlOption := []
deriving DecidableEq

structure ProtoOneOf where
  name : String
  fields : List ProtoField := []
deriving DecidableEq

inductive ProtoMessage where
  | mk (name : String) (fields : List ProtoField) (messages : List ProtoMessage)
       (enums : List ProtoEnum) (oneOfs : List ProtoOneOf)
       (options : List IdlOption) (description : String)

def ProtoMessage.name : ProtoMessage → String
  | .mk n _ _ _ _ _ _ => n

def ProtoMessage.fields : ProtoMessage → List ProtoField
  | .mk _ f _ _ _ _ _ => f

def ProtoMessage.messages : ProtoMessage → List ProtoMessage
  | .mk _ _ m _ _ _ _ => m

def ProtoMessage.enums : ProtoMessage → List ProtoEnum
  | .mk _ _ _ e _ _ _ => e

def ProtoMessage.oneOfs : ProtoMessage → List ProtoOneOf
  | .mk _ _ _ _ o _ _ => o

def ProtoMessage.options : ProtoMessage → List IdlOption
  | .mk _ _ _ _ _ o _ => o

def ProtoMessage.description : ProtoMessage → String
  | .mk _ _ _ _ _ _ d => d

structure ProtoMethod where
  name : String
  input : String
  output : String
  description : String := ""
  options : List IdlOption := []
deriving DecidableEq

structure ProtoService where
  name : String
  methods : List ProtoMethod := []
  options : List IdlOption := []
  description : String := ""
deriving DecidableEq

structure ProtoFile where
  packageName : String := ""
  messages : List ProtoMessage := []
  services : List ProtoService := []
  enums : List ProtoEnum := []
  imports : List String := []
  options : List IdlOption := []

/-! ## Schema model (the subset of the parsed openapi3 tree the converters
read: Ref, Value, Type, Format, Enum, Properties, Items, AdditionalProperties,
OneOf, AnyOf, AllOf, Description) -/

mutual
inductive Schema where
  | mk (types : Option (List String)) (format : String) (enumVals : List String)
       (properties : List (String × SchemaRef)) (items : Option SchemaRef)
       (additionalProps : Option SchemaRef)
       (oneOf : List SchemaRef) (anyOf : List SchemaRef) (allOf : List SchemaRef)
       (description : String) : Schema
inductive SchemaRef where
  | mk (ref : String) (value : Option Schema) : SchemaRef
end

def Schema.types : Schema → Option (List String)
  | .mk t _ _ _ _ _ _ _ _ _ => t

def Schema.format : Schema → String
  | .mk _ f _ _ _ _ _ _ _ _ => f

def Schema.enumVals : Schema → List String
  | .mk _ _ e _ _ _ _ _ _ _ => e

def Schema.properties : Schema → List (String × SchemaRef)
  | .mk _ _ _ p _ _ _ _ _ _ => p

def Schema.items : Schema → Option SchemaRef
  | .mk _ _ _ _ i _ _ _ _ _ => i

def Schema.additionalProps : Schema → Option SchemaRef
  | .mk _ _ _ _ _ a _ _ _ _ => a

def Schema.oneOf : Schema → List SchemaRef
  | .mk _ _ _ _ _ _ o _ _ _ => o

def Schema.anyOf : Schema → List SchemaRef
  | .mk _ _ _ _ _ _ _ a _ _ => a

def Schema.allOf : Schema → List SchemaRef
  | .mk _ _ _ _ _ _ _ _ a _ => a

def Schema.description : Schema → String
  | .mk _ _ _ _ _ _ _ _ _ d => d

def SchemaRef.ref : SchemaRef → String
  | .mk r _ => r

def SchemaRef.value : SchemaRef → Option Schema
  | .mk _ v => v

/-- openapi3.Types.Includes: nil Types includes nothing. -/
def typesIncludes (t : Option (List String)) (x : String) : Bool :=
  match t with
  | some l => l.contains x
  | none => false

/-! ## Operation model (the subset of openapi3 operations the converters read) -/

structure Parameter where
  name : String
  inLoc : String
  schema : Option SchemaRef := none
  description : String := ""

structure MediaType where
  schema : Option SchemaRef := none

structure RequestBody where
  content : List (String × MediaType) := []

structure RequestBodyRef where
  ref : String := ""
  value : Option RequestBody := none

structure Response where
  headers : List (String × SchemaRef) := []
  content : List (String × MediaType) := []

structure ResponseRef where
  ref : String := ""
  value : Option Response := none

structure Operation where
  operationID : String := ""
  tags : Option (List String) := none
  summary : String := ""
  description : String := ""
  parameters : List Parameter := []
  requestBody : Option RequestBodyRef := none
  responses : Option (List (String × ResponseRef)) := none

/-! ## Name derivation (utils.GetMethodName, GenerateMethodName, GetServiceName,
GetMessageName, ConvertPathToPascalCase) -/

def isWordChar (c : Char) : Bool := isGoIdentChar c

/-- The regex replacement of {word} placeholders inside
utils.ConvertPathToPascalCase; the fuel argument only bounds the recursion and
exceeds the input length at every call site. -/
def replacePlaceholders : Nat → List Char → List Char
  | 0, cs => cs
  | _ + 1, [] => []
  | fuel + 1, c :: rest =>
    if c = '{' then
      let inner := rest.takeWhile isWordChar
      if !inner.isEmpty && (rest.drop inner.length).head? = some '}' then
        (ToPascaleCase (String.mk inner)).data ++
          replacePlaceholders fuel (rest.drop (inner.length + 1))
      else c :: replacePlaceholders fuel rest
    else c :: replacePlaceholders fuel rest

/-- utils.ConvertPathToPascalCase: replace {w} placeholders with PascalCase w,
split on "/", PascalCase each segment, concatenate. -/
def ConvertPathToPascalCase (path : String) : String :=
  let replaced := String.mk (replacePlaceholders (path.data.length + 1) path.data)
  String.join ((splitOnChar replaced '/').map ToPascaleCase)

/-- utils.GetMethodName (utils/utils.go, thrift side): operation id, else
Tags[0] whenever the tag slice is non-nil (an out-of-range access, modelled as
none, when it is empty), else a path- or verb-derived name. -/
def GetMethodName (op : Operation) (path method : String) : Option String :=
  if op.operationID ≠ "" then some op.operationID
  else
    match op.tags with
    | some tags => tags.head?
    | none =>
      if path ≠ "" then
        some (ConvertPathToPascalCase path ++ goTitleLower method)
      else
        some (goTitleLower method ++ "Method")

/-- utils.GenerateMethodName (proto-side utils file): operation id, else
Tags[0] whenever the tag slice is non-nil (an out-of-range access, modelled as
none, when it is empty), else summary, else description, else a verb-derived
name. -/
def GenerateMethodName (op : Operation) (method : String) : Option String :=
  if op.operationID ≠ "" then some op.operationID
  else
    match op.tags with
    | some tags => tags.head?
    | none =>
      if op.summary ≠ "" then some op.summary
      else if op.description ≠ "" then some op.description
      else some (goTitleLower method ++ "Method")

/-- utils.GetServiceName over a tag slice (proto-side utils file); the
utils/utils.go variant reads operation.Tags the same way. -/
def GetServiceName (tags : Option (List String)) : String :=
  match tags with
  | some (t :: _) => t
  | _ => "DefaultService"

/-- utils.GetMessageName. -/
def GetMessageName (op : Operation) (methodName suffix : String) : String :=
  if op.operationID ≠ "" then op.operationID ++ suffix
  else methodName ++ suffix

/-! ## Proto converter (converter/converter.go)

The converter's openapiOption branches dump vendor annotations through
reflection (utils.StructToProtobuf); the spec places that passthrough out of
scope and NewProtoConverter hardcodes openapiOption = false, so the embedding
covers the openapiOption = false behaviour and omits those branches. -/

structure ConvertOption where
  openapiOption : Bool
  apiOption : Bool
  namingOption : Bool
deriving DecidableEq

/-- The options NewProtoConverter hardcodes. -/
def defaultConvertOption : ConvertOption :=
  { openapiOption := false, apiOption := true, namingOption := true }

def apiProtoFile : String := "api.proto"

def EmptyProtoFile : String := "google/protobuf/empty.proto"

def EmptyMessage : String := "google.protobuf.Empty"

/-- ProtoConverter.applyNamingOption. -/
def applyNamingOption (opt : ConvertOption) (name : String) : String :=
  if opt.namingOption then ToPascaleCase name else ToUpperFirstLetter name

/-- ProtoConverter.AddProtoImport on the imports list: append unless present. -/
def addImportL (imports : List String) (importFile : String) : List String :=
  if imports.contains importFile then imports else imports ++ [importFile]

/-- ProtoConverter.AddProtoImport. -/
def AddProtoImport (pf : ProtoFile) (importFile : String) : ProtoFile :=
  { pf with imports := addImportL pf.imports importFile }

/-- addFieldIfNotExists: append unless a field of the same name exists. -/
def addFieldIfNotExists (fields : List ProtoField) (f : ProtoField) : List ProtoField :=
  if fields.any (fun ex => ex.name = f.name) then fields else fields ++ [f]

/-- addMessageIfNotExists: append unless a message of the same name exists. -/
def addMessageIfNotExists (msgs : List ProtoMessage) (m : ProtoMessage) : List ProtoMessage :=
  if msgs.any (fun ex => ex.name = m.name) then msgs else msgs ++ [m]

/-- The merge loops of addMessageToProto: the seen-name set is built from the
existing list once and not extended while appending, so every new entry whose
name is absent from the existing list is appended, duplicates among the new
entries included. -/
def mergeAppend (getName : α → String) (exist news : List α) : List α :=
  let names := exist.map getName
  exist ++ news.filter (fun x => !(names.contains (getName x)))

/-- The merge performed by addMessageToProto on an existing message of the same
name: fields, nested messages, nested enums and options each merged by name. -/
def mergeProtoMessage (ex m : ProtoMessage) : ProtoMessage :=
  .mk ex.name
    (mergeAppend (fun f : ProtoField => f.name) ex.fields m.fields)
    (mergeAppend (fun n : ProtoMessage => n.name) ex.messages m.messages)
    (mergeAppend (fun e : ProtoEnum => e.name) ex.enums m.enums)
    ex.oneOfs
    (mergeAppend (fun o : IdlOption => o.name) ex.options m.options)
    ex.description

/-- addMessageToProto: merge into the first message of the same name, else
append. -/
def mergeIntoFirst : List ProtoMessage → ProtoMessage → List ProtoMessage
  | [], m => [m]
  | ex :: rest, m =>
    if ex.name = m.name then mergeProtoMessage ex m :: rest
    else ex :: mergeIntoFirst rest m

def addMessageToProto (pf : ProtoFile) (m : ProtoMessage) : ProtoFile :=
  { pf with messages := mergeIntoFirst pf.messages m }

/-- addEnumToProto: plain append, no merge. -/
def addEnumToProto (pf : ProtoFile) (e : ProtoEnum) : ProtoFile :=
  { pf with enums := pf.enums ++ [e] }

/-- The dynamic result of ConvertSchemaToProtoType (interface holding a
ProtoField, ProtoMessage or ProtoEnum). -/
inductive ProtoResult where
  | field : ProtoField → ProtoResult
  | message : ProtoMessage → ProtoResult
  | enum : ProtoEnum → ProtoResult

/-- The enum-declaration block repeated verbatim in the string/integer/number
cases of ConvertSchemaToProtoType. -/
def mkProtoEnumDecl (opt : ConvertOption) (protoName : String)
    (parentName : Option String) (enumVals : List String) : ProtoEnum :=
  let name := match parentName with
    | none => protoName
    | some pn => applyNamingOption opt (pn ++ ToUpperFirstLetter protoName)
  { name := name, values := enumVals.enum.map (fun p => { index := p.1, value := p.2 }) }

/-- addNestedMessageToParent / addNestedEnumToParent: append to the parent when
there is one, drop otherwise. -/
def addNestedToParent (parentName : Option String) (adds : List α) (x : α) : List α :=
  if parentName.isSome then adds ++ [x] else adds

mutual
/-- ConvertSchemaToProtoType (converter.go). The Go function mutates the parent
message (nested declarations) and the converter imports; here it returns,
beside the result, the nested messages and enums appended to the parent during
the call (empty whenever the parent is nil, mirroring the nil-parent no-op of
addNestedMessageToParent) and the updated imports list. -/
def ConvertSchemaToProtoType (opt : ConvertOption) (schemaRef : SchemaRef)
    (protoName : String) (parentName : Option String) (imports : List String) :
    Except String (ProtoResult × List ProtoMessage × List ProtoEnum × List String) :=
  match schemaRef with
  | .mk ref val =>
    if ref ≠ "" then
      .ok (.field { name := applyNamingOption opt (ExtractMessageNameFromRef ref),
                    type := ExtractMessageNameFromRef ref }, [], [], imports)
    else
      match val with
      | none => .error "schema type is required"
      | some s =>
        match s with
        | .mk types format enumVals properties items addProps _ _ _ _ =>
          match types with
          | none => .error "schema type is required"
          | some tys =>
            if tys.contains "string" then
              if format = "date" || format = "date-time" then
                .ok (.field { name := applyNamingOption opt protoName,
                              type := "google.protobuf.Timestamp" }, [], [],
                     addImportL imports "google/protobuf/timestamp.proto")
              else if !enumVals.isEmpty then
                .ok (.enum (mkProtoEnumDecl opt protoName parentName enumVals), [], [], imports)
              else
                .ok (.field { name := applyNamingOption opt protoName, type := "string" },
                     [], [], imports)
            else if tys.contains "integer" then
              if !enumVals.isEmpty then
                .ok (.enum (mkProtoEnumDecl opt protoName parentName enumVals), [], [], imports)
              else if format = "int32" then
                .ok (.field { name := applyNamingOption opt protoName, type := "int32" },
                     [], [], imports)
              else
                .ok (.field { name := applyNamingOption opt protoName, type := "int64" },
                     [], [], imports)
            else if tys.contains "number" then
              if !enumVals.isEmpty then
                .ok (.enum (mkProtoEnumDecl opt protoName parentName enumVals), [], [], imports)
              else if format = "float" then
                .ok (.field { name := applyNamingOption opt protoName, type := "float" },
                     [], [], imports)
              else
                .ok (.field { name := applyNamingOption opt protoName, type := "double" },
                     [], [], imports)
            else if tys.contains "boolean" then
              .ok (.field { name := applyNamingOption opt protoName, type := "bool" },
                   [], [], imports)
            else if tys.contains "array" then
              match items with
              | none =>
                .ok (.field { name := applyNamingOption opt protoName, type := "" },
                     [], [], imports)
              | some itemRef =>
                match ConvertSchemaToProtoType opt itemRef (protoName ++ "Item") parentName imports with
                | .error e => .error e
                | .ok (res, am, ae, imports2) =>
                  match res with
                  | .field f =>
                    .ok (.field { name := applyNamingOption opt protoName, type := f.type,
                                  repeated := true }, am, ae, imports2)
                  | .message m =>
                    .ok (.field { name := applyNamingOption opt protoName, type := m.name,
                                  repeated := true },
                         addNestedToParent parentName am m, ae, imports2)
                  | .enum e =>
                    .ok (.field { name := applyNamingOption opt protoName, type := e.name,
                                  repeated := true },
                         am, addNestedToParent parentName ae e, imports2)
            else if tys.contains "object" then
              let msgName := match parentName with
                | none => protoName
                | some pn => applyNamingOption opt (pn ++ ToUpperFirstLetter protoName)
              match convertProtoProperties opt properties msgName [] [] [] imports with
              | .error e => .error e
              | .ok (fields, msgs, enums, imports2) =>
                match addProps with
                | none =>
                  .ok (.message (.mk msgName fields msgs enums [] [] ""), [], [], imports2)
                | some apRef =>
                  match ConvertSchemaToProtoType opt apRef (protoName ++ "AdditionalProperties")
                      parentName imports2 with
                  | .error e => .error e
                  | .ok (res2, am2, ae2, imports3) =>
                    let mapValueType := match res2 with
                      | .message m2 => m2.name
                      | .enum e2 => e2.name
                      | .field _ => "string"
                    .ok (.message (.mk msgName
                           (fields ++ [{ name := "additionalProperties",
                                         type := "map<string, " ++ mapValueType ++ ">" }])
                           msgs enums [] [] ""), am2, ae2, imports3)
            else
              .ok (.field { name := applyNamingOption opt protoName, type := "" },
                   [], [], imports)

/-- The property loop of the object case of ConvertSchemaToProtoType. -/
def convertProtoProperties (opt : ConvertOption) (props : List (String × SchemaRef))
    (msgName : String) (fields : List ProtoField) (msgs : List ProtoMessage)
    (enums : List ProtoEnum) (imports : List String) :
    Except String (List ProtoField × List ProtoMessage × List ProtoEnum × List String) :=
  match props with
  | [] => .ok (fields, msgs, enums, imports)
  | (propName, propSchema) :: rest =>
    match ConvertSchemaToProtoType opt propSchema propName (some msgName) imports with
    | .error e => .error e
    | .ok (res, am, ae, imports2) =>
      let msgs := msgs ++ am
      let enums := enums ++ ae
      match res with
      | .field f =>
        convertProtoProperties opt rest msgName (fields ++ [f]) msgs enums imports2
      | .message m =>
        convertProtoProperties opt rest msgName
          (fields ++ [{ name := applyNamingOption opt propName, type := m.name }])
          (msgs ++ [m]) enums imports2
      | .enum e =>
        convertProtoProperties opt rest msgName
          (fields ++ [{ name := applyNamingOption opt propName, type := e.name }])
          msgs (enums ++ [e]) imports2
end

/-- The request-body content loop of generateRequestMessage (converter.go):
threads the request message's field/nested lists and the ProtoFile (imports). -/
def requestContentLoop (opt : ConvertOption) (messageName : String)
    (content : List (String × MediaType)) (fields : List ProtoField)
    (msgs : List ProtoMessage) (enums : List ProtoEnum) (pf : ProtoFile) :
    Except String (List ProtoField × List ProtoMessage × List ProtoEnum × ProtoFile) :=
  match content with
  | [] => .ok (fields, msgs, enums, pf)
  | (mediaTypeStr, mt) :: rest =>
    match mt.schema with
    | none => requestContentLoop opt messageName rest fields msgs enums pf
    | some schema =>
      match ConvertSchemaToProtoType opt schema (FormatNaming mediaTypeStr)
          (some messageName) pf.imports with
      | .error e => .error e
      | .ok (res, am, ae, imports2) =>
        let pf := { pf with imports := imports2 }
        let msgs := msgs ++ am
        let enums := enums ++ ae
        let optionName :=
          if mediaTypeStr = "application/json" then "api.body"
          else if mediaTypeStr = "application/x-www-form-urlencoded" ||
                  mediaTypeStr = "multipart/form-data" then "api.form"
          else ""
        match res with
        | .field f =>
          let fpf :=
            if opt.apiOption && optionName ≠ "" then
              ({ f with options := f.options ++ [⟨optionName, goQuote f.name⟩] },
               AddProtoImport pf apiProtoFile)
            else (f, pf)
          requestContentLoop opt messageName rest
            (addFieldIfNotExists fields fpf.1) msgs enums fpf.2
        | .message m =>
          let name := if opt.namingOption then ToPascaleCase mediaTypeStr
                      else FormatNaming mediaTypeStr
          let newField : ProtoField := { name := name, type := m.name }
          let fpf :=
            if opt.apiOption && optionName ≠ "" then
              ({ newField with options := newField.options ++ [⟨optionName, goQuote m.name⟩] },
               AddProtoImport pf apiProtoFile)
            else (newField, pf)
          requestContentLoop opt messageName rest (fields ++ [fpf.1])
            (addMessageIfNotExists msgs m) enums fpf.2
        | .enum e =>
          let name := if opt.namingOption then ToPascaleCase mediaTypeStr
                      else FormatNaming mediaTypeStr
          let newField : ProtoField := { name := name, type := e.name }
          let fpf :=
            if opt.apiOption && optionName ≠ "" then
              ({ newField with options := newField.options ++ [⟨optionName, goQuote e.name⟩] },
               AddProtoImport pf apiProtoFile)
            else (newField, pf)
          requestContentLoop opt messageName rest (fields ++ [fpf.1])
            msgs (enums ++ [e]) fpf.2

/-- The parameter loop of generateRequestMessage (converter.go). -/
def requestParamsLoop (opt : ConvertOption) (messageName : String)
    (params : List Parameter) (fields : List ProtoField) (msgs : List ProtoMessage)
    (enums : List ProtoEnum) (pf : ProtoFile) :
    Except String (List ProtoField × List ProtoMessage × List ProtoEnum × ProtoFile) :=
  match params with
  | [] => .ok (fields, msgs, enums, pf)
  | param :: rest =>
    match param.schema with
    | none => requestParamsLoop opt messageName rest fields msgs enums pf
    | some schema =>
      match ConvertSchemaToProtoType opt schema param.name (some messageName) pf.imports with
      | .error e => .error e
      | .ok (res, am, ae, imports2) =>
        let pf := { pf with imports := imports2 }
        let msgs := msgs ++ am
        let enums := enums ++ ae
        match res with
        | .field f =>
          let fpf :=
            if opt.apiOption then
              ({ f with options := f.options ++ [⟨"api." ++ param.inLoc, goQuote param.name⟩] },
               AddProtoImport pf apiProtoFile)
            else (f, pf)
          requestParamsLoop opt messageName rest
            (addFieldIfNotExists fields fpf.1) msgs enums fpf.2
        | .message m =>
          let name := if opt.namingOption then ToPascaleCase param.name
                      else ToUpperFirstLetter param.name
          let newField : ProtoField := { name := name, type := m.name }
          let fpf :=
            if opt.apiOption then
              ({ newField with
                   options := newField.options ++ [⟨"api." ++ param.inLoc, goQuote param.name⟩] },
               AddProtoImport pf apiProtoFile)
            else (newField, pf)
          requestParamsLoop opt messageName rest (fields ++ [fpf.1])
            (addMessageIfNotExists msgs m) enums fpf.2
        | .enum e =>
          let name := if opt.namingOption then ToPascaleCase param.name
                      else ToUpperFirstLetter param.name
          let newField : ProtoField := { name := name, type := e.name }
          let fpf :=
            if opt.apiOption then
              ({ newField with
                   options := newField.options ++ [⟨"api." ++ param.inLoc, goQuote param.name⟩] },
               AddProtoImport pf apiProtoFile)
            else (newField, pf)
          requestParamsLoop opt messageName rest (fields ++ [fpf.1])
            msgs (enums ++ [e]) fpf.2

/-- generateRequestMessage (converter.go): empty-type collapse, referenced
bodies, body content, parameters, and the final zero-field fallthrough that
returns an empty type name without registering anything. -/
def generateRequestMessage (opt : ConvertOption) (op : Operation) (pf : ProtoFile) :
    Except String (String × ProtoFile) :=
  let messageName0 := op.operationID ++ "Request"
  let messageName := if opt.namingOption then ToPascaleCase messageName0
                     else ToUpperFirstLetter messageName0
  if op.requestBody.isNone && op.parameters.isEmpty then
    .ok (EmptyMessage, AddProtoImport pf EmptyProtoFile)
  else
    let bodyStep : Except String (Option String × List ProtoField × List ProtoMessage × List ProtoEnum × ProtoFile) :=
      match op.requestBody with
      | none => .ok (none, [], [], [], pf)
      | some rb =>
        if rb.ref ≠ "" then .ok (some (ExtractMessageNameFromRef rb.ref), [], [], [], pf)
        else
          match rb.value with
          | none => .ok (none, [], [], [], pf)
          | some body =>
            if body.content.isEmpty then .ok (none, [], [], [], pf)
            else
              match requestContentLoop opt messageName body.content [] [] [] pf with
              | .error e => .error e
              | .ok (fields, msgs, enums, pf) => .ok (none, fields, msgs, enums, pf)
    match bodyStep with
    | .error e => .error e
    | .ok (some refName, _, _, _, pf) => .ok (refName, pf)
    | .ok (none, fields, msgs, enums, pf) =>
      match requestParamsLoop opt messageName op.parameters fields msgs enums pf with
      | .error e => .error e
      | .ok (fields, msgs, enums, pf) =>
        if !fields.isEmpty || !msgs.isEmpty || !enums.isEmpty then
          .ok (messageName, addMessageToProto pf (.mk messageName fields msgs enums [] [] ""))
        else
          .ok ("", pf)

/-- Emptiness test used by generateResponseMessage when counting responses:
no reference and no content and no headers. -/
def responseIsTrivial (rr : ResponseRef) : Bool :=
  rr.ref = "" && (match rr.value with
    | none => true
    | some v => v.content.isEmpty && v.headers.isEmpty)

/-- The header loop of processSingleResponse (converter.go). -/
def responseHeadersLoop (opt : ConvertOption) (messageName : String)
    (headers : List (String × SchemaRef)) (fields : List ProtoField)
    (msgs : List ProtoMessage) (enums : List ProtoEnum) (pf : ProtoFile) :
    Except String (List ProtoField × List ProtoMessage × List ProtoEnum × ProtoFile) :=
  match headers with
  | [] => .ok (fields, msgs, enums, pf)
  | (headerName, hs) :: rest =>
    match ConvertSchemaToProtoType opt hs headerName (some messageName) pf.imports with
    | .error e => .error e
    | .ok (res, am, ae, imports2) =>
      let pf := { pf with imports := imports2 }
      let msgs := msgs ++ am
      let enums := enums ++ ae
      match res with
      | .field f =>
        let fpf :=
          if opt.apiOption then
            ({ f with options := f.options ++ [⟨"api.header", goQuote headerName⟩] },
             AddProtoImport pf apiProtoFile)
          else (f, pf)
        responseHeadersLoop opt messageName rest
          (addFieldIfNotExists fields fpf.1) msgs enums fpf.2
      | .message m =>
        let name := if opt.namingOption then ToSnakeCase headerName
                    else ToUpperFirstLetter headerName
        let newField : ProtoField := { name := name, type := m.name }
        let fpf :=
          if opt.apiOption then
            ({ newField with options := newField.options ++ [⟨"api.header", goQuote headerName⟩] },
             AddProtoImport pf apiProtoFile)
          else (newField, pf)
        responseHeadersLoop opt messageName rest (fields ++ [fpf.1])
          (addMessageIfNotExists msgs m) enums fpf.2
      | .enum e =>
        let name := if opt.namingOption then ToSnakeCase headerName
                    else ToUpperFirstLetter headerName
        let newField : ProtoField := { name := name, type := e.name }
        let fpf :=
          if opt.apiOption then
            ({ newField with options := newField.options ++ [⟨"api.header", goQuote headerName⟩] },
             AddProtoImport pf apiProtoFile)
          else (newField, pf)
        responseHeadersLoop opt messageName rest (fields ++ [fpf.1])
          msgs (enums ++ [e]) fpf.2

/-- The content loop of processSingleResponse (converter.go). -/
def responseContentLoop (opt : ConvertOption) (messageName : String)
    (content : List (String × MediaType)) (fields : List ProtoField)
    (msgs : List ProtoMessage) (enums : List ProtoEnum) (pf : ProtoFile) :
    Except String (List ProtoField × List ProtoMessage × List ProtoEnum × ProtoFile) :=
  match content with
  | [] => .ok (fields, msgs, enums, pf)
  | (mediaTypeStr, mt) :: rest =>
    match mt.schema with
    | none => responseContentLoop opt messageName rest fields msgs enums pf
    | some schema =>
      match ConvertSchemaToProtoType opt schema (FormatNaming mediaTypeStr)
          (some messageName) pf.imports with
      | .error e => .error e
      | .ok (res, am, ae, imports2) =>
        let pf := { pf with imports := imports2 }
        let msgs := msgs ++ am
        let enums := enums ++ ae
        match res with
        | .field f =>
          let fpf :=
            if opt.apiOption && mediaTypeStr = "application/json" then
              ({ f with options := f.options ++ [⟨"api.body", goQuote f.name⟩] },
               AddProtoImport pf apiProtoFile)
            else (f, pf)
          responseContentLoop opt messageName rest
            (addFieldIfNotExists fields fpf.1) msgs enums fpf.2
        | .message m =>
          let msgs := addMessageIfNotExists msgs m
          let name := if opt.namingOption then ToSnakeCase mediaTypeStr
                      else ToUpperFirstLetter mediaTypeStr
          let newField : ProtoField := { name := name, type := m.name }
          let fpf :=
            if opt.apiOption && mediaTypeStr = "application/json" then
              ({ newField with options := newField.options ++ [⟨"api.body", goQuote m.name⟩] },
               AddProtoImport pf apiProtoFile)
            else (newField, pf)
          responseContentLoop opt messageName rest (fields ++ [fpf.1]) msgs enums fpf.2
        | .enum e =>
          let name := if opt.namingOption then ToSnakeCase mediaTypeStr
                      else ToUpperFirstLetter mediaTypeStr
          let newField : ProtoField := { name := name, type := e.name }
          let fpf :=
            if opt.apiOption && mediaTypeStr = "application/json" then
              ({ newField with options := newField.options ++ [⟨"api.body", goQuote e.name⟩] },
               AddProtoImport pf apiProtoFile)
            else (newField, pf)
          responseContentLoop opt messageName rest (fields ++ [fpf.1])
            msgs (enums ++ [e]) fpf.2

/-- processSingleResponse (converter.go). A nil response value would be a nil
dereference in Go; the call sites only pass non-trivial responses, so that
case surfaces as an error here. -/
def processSingleResponse (opt : ConvertOption) (statusCode : String)
    (rr : ResponseRef) (op : Operation) (pf : ProtoFile) :
    Except String (String × ProtoFile) :=
  if rr.ref ≠ "" then .ok (ExtractMessageNameFromRef rr.ref, pf)
  else
    match rr.value with
    | none => .error "nil response dereference"
    | some response =>
      let messageName0 := op.operationID ++ "Response" ++ ToUpperFirstLetter statusCode
      let messageName := if opt.namingOption then ToPascaleCase messageName0
                         else ToUpperFirstLetter messageName0
      match responseHeadersLoop opt messageName response.headers [] [] [] pf with
      | .error e => .error e
      | .ok (fields, msgs, enums, pf) =>
        match responseContentLoop opt messageName response.content fields msgs enums pf with
        | .error e => .error e
        | .ok (fields, msgs, enums, pf) =>
          if !fields.isEmpty || !msgs.isEmpty || !enums.isEmpty then
            .ok (messageName, addMessageToProto pf (.mk messageName fields msgs enums [] [] ""))
          else
            .ok ("", pf)

/-- The wrapper-field loop of generateResponseMessage: note the Go loop breaks
(rather than continues) at the first body-less response it meets in iteration
order. -/
def responseWrapperLoop (opt : ConvertOption) (responses : List (String × ResponseRef))
    (op : Operation) (fields : List ProtoField) (emptyFlag : Bool) (pf : ProtoFile) :
    Except String (List ProtoField × Bool × ProtoFile) :=
  match responses with
  | [] => .ok (fields, emptyFlag, pf)
  | (statusCode, rr) :: rest =>
    if rr.ref = "" && (match rr.value with
        | none => true
        | some v => v.content.isEmpty) then
      .ok (fields, emptyFlag, pf)
    else
      match processSingleResponse opt statusCode rr op pf with
      | .error e => .error e
      | .ok (messageName, pf) =>
        let name0 := "Response_" ++ statusCode
        let name := if opt.namingOption then ToPascaleCase name0
                    else ToUpperFirstLetter name0
        responseWrapperLoop opt rest op
          (fields ++ [{ name := name, type := messageName }]) false pf

/-- generateResponseMessage (converter.go). With exactly one non-trivial
response the Go loop returns on the first map entry; with any other count it
synthesizes the Response wrapper (which collapses to the empty type when the
loop saw no response with a body). -/
def generateResponseMessage (opt : ConvertOption) (op : Operation) (pf : ProtoFile) :
    Except String (String × ProtoFile) :=
  match op.responses with
  | none => .ok ("", pf)
  | some responses =>
    let responseCount := (responses.filter (fun p => !(responseIsTrivial p.2))).length
    match responses.head? with
    | some (statusCode, rr) =>
      if responseCount = 1 then
        if responseIsTrivial rr then
          .ok (EmptyMessage, AddProtoImport pf EmptyProtoFile)
        else
          processSingleResponse opt statusCode rr op pf
      else
        let wrapperMessageName0 := op.operationID ++ "Response"
        let wrapperMessageName := if opt.namingOption then ToPascaleCase wrapperMessageName0
                                  else ToUpperFirstLetter wrapperMessageName0
        match responseWrapperLoop opt responses op [] true pf with
        | .error e => .error e
        | .ok (fields, emptyFlag, pf) =>
          if emptyFlag then
            .ok (EmptyMessage, AddProtoImport pf EmptyProtoFile)
          else
            .ok (wrapperMessageName,
                 addMessageToProto pf (.mk wrapperMessageName fields [] [] [] [] ""))
    | none =>
      let wrapperMessageName0 := op.operationID ++ "Response"
      let wrapperMessageName := if opt.namingOption then ToPascaleCase wrapperMessageName0
                                else ToUpperFirstLetter wrapperMessageName0
      match responseWrapperLoop opt responses op [] true pf with
      | .error e => .error e
      | .ok (fields, emptyFlag, pf) =>
        if emptyFlag then
          .ok (EmptyMessage, AddProtoImport pf EmptyProtoFile)
        else
          .ok (wrapperMessageName,
               addMessageToProto pf (.mk wrapperMessageName fields [] [] [] [] ""))

/-- methodExistsInService (converter.go). -/
def methodExistsInService (service : ProtoService) (methodName : String) : Bool :=
  service.methods.any (fun m => m.name = methodName)

/-- The service-registration step of ConvertPathsToProtoServices (converter.go
lines 211-243): findOrCreateService by name, then append the method unless one
of the same name is already registered. -/
def registerProtoMethod : List ProtoService → String → ProtoMethod → List ProtoService
  | [], serviceName, m => [{ name := serviceName, methods := [m] }]
  | s :: rest, serviceName, m =>
    if s.name = serviceName then
      (if methodExistsInService s m.name then s
       else { s with methods := s.methods ++ [m] }) :: rest
    else s :: registerProtoMethod rest serviceName m

/-- The whole operation loop of ConvertPathsToProtoServices as it acts on the
service list: one registration per (service name, method) pair in iteration
order. -/
def registerProtoOps (regs : List (String × ProtoMethod)) (services : List ProtoService) :
    List ProtoService :=
  regs.foldl (fun acc r => registerProtoMethod acc r.1 r.2) services

/-! ## Proto serializer (generate/proto_generate.go)

The Go code appends to a strings.Builder; each encode function here returns
the text it appends. Go string comparison is byte-lexicographic, which on the
ASCII identifiers involved coincides with the character-wise order below. -/

/-- Go string comparison s < t, character-lexicographically. -/
def strLtChars : List Char → List Char → Bool
  | [], [] => false
  | [], _ :: _ => true
  | _ :: _, [] => false
  | a :: as_, b :: bs =>
    if a.toNat < b.toNat then true
    else if b.toNat < a.toNat then false
    else strLtChars as_ bs

def strLtB (s t : String) : Bool := strLtChars s.data t.data

/-- sort.Slice: a comparison sort driven by a less-comparator, modelled as an
insertion sort (the comparator fully determines the result whenever the keys
are distinct, which is the case relevant to the claims; Go's sort is
unstable). -/
def ordInsertLess (less : α → α → Bool) (a : α) : List α → List α
  | [] => [a]
  | b :: l => if less b a then b :: ordInsertLess less a l else a :: b :: l

def sortSliceBy (less : α → α → Bool) : List α → List α
  | [] => []
  | a :: l => ordInsertLess less a (sortSliceBy less l)

/-- strings.Repeat. -/
def repeatStr (s : String) (n : Nat) : String := String.join (List.replicate n s)

/-- encodeFieldOption (proto_generate.go): `(name) = value`. The map-valued
branch renders reflection dumps of vendor annotations, which the embedded
converter paths (openapiOption = false) never construct; option values here
are strings and take the default branch. -/
def encodeFieldOption (o : IdlOption) : String :=
  "(" ++ o.name ++ ") = " ++ o.value

/-- encodeEnum (proto_generate.go). -/
def encodeEnum (e : ProtoEnum) (indentLevel : Nat) : String :=
  let indent := repeatStr "  " indentLevel
  indent ++ "enum " ++ e.name ++ " \x7b\n" ++
  String.join (e.values.map (fun v =>
    let valueStr := v.value
    let enumValueName := if goAtoiOk valueStr then e.name ++ valueStr else valueStr
    let enumValueName := goToUpper (FormatStr enumValueName)
    indent ++ "  " ++ enumValueName ++ " = " ++ toString v.index ++ ";\n")) ++
  indent ++ "\x7d\n\n"

/-- One iteration of the field loop of encodeMessage: the field rendered with
the current field number. -/
def encodeProtoField (indent : String) (f : ProtoField) (n : Nat) : String :=
  (if f.description ≠ "" then indent ++ "  // " ++ f.description ++ "\n" else "") ++
  indent ++ "  " ++ (if f.repeated then "repeated " else "") ++ f.type ++ " " ++
  FormatStr f.name ++ " = " ++ toString n ++
  (if f.options.isEmpty then ""
   else " [\n    " ++
     String.intercalate (",\n    ")
       ((sortSliceBy (fun a b : IdlOption => strLtB a.name b.name) f.options).map encodeFieldOption) ++
     "\n  ]") ++ ";\n"

/-- The field loop of encodeMessage: sequential field numbers threaded through
the fold; returns the rendered text and the next field number. -/
def encodeProtoFieldsLoop (indent : String) : List ProtoField → Nat → String × Nat
  | [], n => ("", n)
  | f :: rest, n =>
    let r := encodeProtoFieldsLoop indent rest (n + 1)
    (encodeProtoField indent f n ++ r.1, r.2)

/-- encodeOneOf (proto_generate.go). -/
def encodeOneOf (o : ProtoOneOf) (indentLevel : Nat) (n : Nat) : String × Nat :=
  let indent := repeatStr "  " indentLevel
  let body := encodeOneOfFieldsLoop indent o.fields n
  (indent ++ "oneof " ++ o.name ++ " \x7b\n" ++ body.1 ++ indent ++ "\x7d\n", body.2)
where
  encodeOneOfFieldsLoop (indent : String) : List ProtoField → Nat → String × Nat
    | [], n => ("", n)
    | f :: rest, n =>
      let r := encodeOneOfFieldsLoop indent rest (n + 1)
      (indent ++ "  " ++ f.type ++ " " ++ f.name ++ " = " ++ toString n ++ ";\n" ++ r.1, r.2)

def encodeOneOfsLoop (indentLevel : Nat) : List ProtoOneOf → Nat → String
  | [], _ => ""
  | o :: rest, n =>
    let r := encodeOneOf o indentLevel n
    r.1 ++ encodeOneOfsLoop indentLevel rest r.2

mutual
/-- encodeMessage (proto_generate.go): options sorted by name, fields sorted by
name then numbered sequentially from 1, oneofs continuing the numbering,
nested enums and messages indented one level deeper. -/
def encodeMessage : ProtoMessage → Nat → String
  | .mk name fields messages enums oneOfs options description, indentLevel =>
    let indent := repeatStr "  " indentLevel
    let sortedFields := sortSliceBy (fun a b : ProtoField => strLtB a.name b.name) fields
    let fieldsPart := encodeProtoFieldsLoop indent sortedFields 1
    (if indentLevel > 0 then "\n" else "") ++
    (if description ≠ "" then indent ++ "// " ++ description ++ "\n" else "") ++
    indent ++ "message " ++ name ++ " \x7b\n" ++
    (if options.isEmpty then ""
     else indent ++ "  option" ++
       String.join ((sortSliceBy (fun a b : IdlOption => strLtB a.name b.name) options).map
         (fun o => encodeFieldOption o ++ ";\n"))) ++
    fieldsPart.1 ++
    encodeOneOfsLoop (indentLevel + 1) oneOfs fieldsPart.2 ++
    (if enums.isEmpty then ""
     else "\n" ++ String.join (enums.map (fun e => encodeEnum e (indentLevel + 1)))) ++
    encodeMessagesLoop messages (indentLevel + 1) ++
    indent ++ "\x7d\n\n"

/-- The nested-message loop of encodeMessage. -/
def encodeMessagesLoop : List ProtoMessage → Nat → String
  | [], _ => ""
  | m :: rest, indentLevel => encodeMessage m indentLevel ++ encodeMessagesLoop rest indentLevel
end

/-- The rpc lines of one service in Generate (proto_generate.go). -/
def encodeProtoMethod (m : ProtoMethod) : String :=
  (if m.description ≠ "" then "  // " ++ m.description ++ "\n" else "") ++
  "  rpc " ++ m.name ++ "(" ++ m.input ++ ") returns (" ++ m.output ++ ")" ++
  (if m.options.isEmpty then ";\n"
   else " \x7b\n" ++
     String.join ((sortSliceBy (fun a b : IdlOption => strLtB a.name b.name) m.options).map
       (fun o => "     option " ++ encodeFieldOption o ++ ";\n")) ++
     "  \x7d\n")

/-- The service block of Generate (proto_generate.go): methods sorted by name. -/
def encodeProtoService (s : ProtoService) : String :=
  (if s.description ≠ "" then "// " ++ s.description ++ "\n" else "") ++
  "service " ++ s.name ++ " \x7b\n" ++
  String.join ((sortSliceBy (fun a b : ProtoMethod => strLtB a.name b.name) s.methods).map
    encodeProtoMethod) ++
  "\x7d\n\n"

/-- Generate (proto_generate.go): header, imports in stored order, file
options, then enums, messages and services, each group sorted by name. -/
def protoGenerate (f : ProtoFile) : String :=
  "syntax = \"proto3\";\n\n" ++
  "package " ++ f.packageName ++ ";\n\n" ++
  String.join (f.imports.map (fun i => "import \"" ++ i ++ "\";\n")) ++
  (if f.imports.isEmpty then "" else "\n") ++
  (if f.options.isEmpty then ""
   else String.join (f.options.map (fun o => "option " ++ o.name ++ " = " ++ o.value ++ ";\n")) ++ "\n") ++
  String.join ((sortSliceBy (fun a b : ProtoEnum => strLtB a.name b.name) f.enums).map
    (fun e => encodeEnum e 0)) ++
  String.join ((sortSliceBy (fun a b : ProtoMessage => strLtB a.name b.name) f.messages).map
    (fun m => encodeMessage m 0)) ++
  String.join ((sortSliceBy (fun a b : ProtoService => strLtB a.name b.name) f.services).map
    encodeProtoService)

/-! ## Thrift IR model (the thrift model file). The ThriftField ID slot is
never assigned by the converter and never read by the generator (which numbers
by loop index), so it is omitted here. -/

structure ThriftField where
  name : String
  type : String
  repeated : Bool := false
  optional : Bool := false
  description : String := ""
  options : List IdlOption := []
deriving DecidableEq

structure ThriftStruct where
  name : String
  description : String := ""
  fields : List ThriftField := []
  options : List IdlOption := []
deriving DecidableEq

structure ThriftUnion where
  name : String
  fields : List ThriftField := []
  options : List IdlOption := []
deriving DecidableEq

structure ThriftEnumValue where
  index : Nat
  value : String
deriving DecidableEq

structure ThriftEnum where
  name : String
  description : String := ""
  values : List ThriftEnumValue := []
  options : List IdlOption := []
deriving DecidableEq

structure ThriftConstant where
  name : String
  type : String
  value : String
deriving DecidableEq

structure ThriftMethod where
  name : String
  description : String := ""
  input : List String := []
  output : String := ""
  options : List IdlOption := []
deriving DecidableEq

structure ThriftService where
  name : String
  description : String := ""
  methods : List ThriftMethod := []
  options : List IdlOption := []
deriving DecidableEq

structure ThriftFile where
  namespaces : List (String × String) := []
  includes : List String := []
  structs : List ThriftStruct := []
  unions : List ThriftUnion := []
  enums : List ThriftEnum := []
  constants : List ThriftConstant := []
  services : List ThriftService := []
deriving DecidableEq

/-! ## Thrift converter (converter/thrift_converter.go); openapiOption branches
omitted as for the proto converter. -/

/-- ThriftConverter.applyNamingOption: PascalCase when the naming option is on,
the name unchanged otherwise. -/
def applyNamingOptionThrift (opt : ConvertOption) (name : String) : String :=
  if opt.namingOption then ToPascaleCase name else name

/-- addMessageToThrift: merge fields (by name, static seen-set semantics as in the
proto registry) into the first struct of the same name, else append. -/
def mergeIntoFirstThrift : List ThriftStruct → ThriftStruct → List ThriftStruct
  | [], m => [m]
  | ex :: rest, m =>
    if ex.name = m.name then
      { ex with fields := mergeAppend (fun f : ThriftField => f.name) ex.fields m.fields } :: rest
    else ex :: mergeIntoFirstThrift rest m

def addMessageToThrift (tf : ThriftFile) (m : ThriftStruct) : ThriftFile :=
  { tf with structs := mergeIntoFirstThrift tf.structs m }

def addEnumToThrift (tf : ThriftFile) (e : ThriftEnum) : ThriftFile :=
  { tf with enums := tf.enums ++ [e] }

def addUnionToThrift (tf : ThriftFile) (u : ThriftUnion) : ThriftFile :=
  { tf with unions := tf.unions ++ [u] }

def AddThriftInclude (tf : ThriftFile) (includeFile : String) : ThriftFile :=
  { tf with includes := addImportL tf.includes includeFile }

def addThriftFieldIfNotExists (fields : List ThriftField) (f : ThriftField) : List ThriftField :=
  if fields.any (fun ex => ex.name = f.name) then fields else fields ++ [f]

/-- The dynamic result of ConvertSchemaToThriftType. -/
inductive ThriftResult where
  | field : ThriftField → ThriftResult
  | struct : ThriftStruct → ThriftResult
  | enum : ThriftEnum → ThriftResult
  | union : ThriftUnion → ThriftResult

/-- The enum-declaration block repeated in the string/integer/number cases of
ConvertSchemaToThriftType: parent-independent of the parent name, suffixed
with "Enum". -/
def mkThriftEnumDecl (opt : ConvertOption) (thriftName : String) (parentPresent : Bool)
    (enumVals : List String) (description : String) : ThriftEnum :=
  let name := if parentPresent then applyNamingOptionThrift opt (ToUpperCase thriftName)
              else thriftName
  { name := name ++ "Enum", description := description,
    values := enumVals.enum.map (fun p => { index := p.1, value := p.2 }) }

mutual
/-- ConvertSchemaToThriftType (thrift_converter.go). The ThriftFile registry is
threaded through because the thrift lowering registers nested declarations
globally during the call. The parent message is consulted only for nil-ness. -/
def ConvertSchemaToThriftType (opt : ConvertOption) (schemaRef : SchemaRef)
    (thriftName : String) (parentPresent : Bool) (tf : ThriftFile) :
    Except String (ThriftResult × ThriftFile) :=
  match schemaRef with
  | .mk ref val =>
    if ref ≠ "" then
      .ok (.field { name := applyNamingOptionThrift opt (ExtractMessageNameFromRef ref),
                    type := ExtractMessageNameFromRef ref }, tf)
    else
      match val with
      | none => .error "schema type is required"
      | some s =>
        match s with
        | .mk types format enumVals properties items addProps oneOf anyOf allOf description =>
          if !oneOf.isEmpty then
            match handleOneOfLoop opt oneOf thriftName parentPresent 0 [] tf with
            | .error e => .error e
            | .ok (fields, tf) => .ok (.union { name := thriftName ++ "OneOf", fields := fields }, tf)
          else if !allOf.isEmpty then
            match handleAllOfLoop opt allOf thriftName parentPresent 0 [] tf with
            | .error e => .error e
            | .ok (fields, tf) => .ok (.struct { name := thriftName ++ "AllOf", fields := fields }, tf)
          else if !anyOf.isEmpty then
            match handleAnyOfLoop opt anyOf thriftName parentPresent 0 [] tf with
            | .error e => .error e
            | .ok (fields, tf) => .ok (.struct { name := thriftName ++ "AnyOf", fields := fields }, tf)
          else if typesIncludes types "string" then
            if format = "date" || format = "date-time" then
              .ok (.field { name := applyNamingOptionThrift opt thriftName, type := "string",
                            description := description }, tf)
            else if format = "byte" || format = "binary" then
              .ok (.field { name := applyNamingOptionThrift opt thriftName, type := "binary",
                            description := description }, tf)
            else if !enumVals.isEmpty then
              .ok (.enum (mkThriftEnumDecl opt thriftName parentPresent enumVals description), tf)
            else
              .ok (.field { name := applyNamingOptionThrift opt thriftName, type := "string",
                            description := description }, tf)
          else if typesIncludes types "integer" then
            if !enumVals.isEmpty then
              .ok (.enum (mkThriftEnumDecl opt thriftName parentPresent enumVals description), tf)
            else if format = "int32" then
              .ok (.field { name := applyNamingOptionThrift opt thriftName, type := "i32",
                            description := description }, tf)
            else
              .ok (.field { name := applyNamingOptionThrift opt thriftName, type := "i64",
                            description := description }, tf)
          else if typesIncludes types "number" then
            if !enumVals.isEmpty then
              .ok (.enum (mkThriftEnumDecl opt thriftName parentPresent enumVals description), tf)
            else if format = "float" then
              .ok (.field { name := applyNamingOptionThrift opt thriftName, type := "float",
                            description := description }, tf)
            else
              .ok (.field { name := applyNamingOptionThrift opt thriftName, type := "double",
                            description := description }, tf)
          else if typesIncludes types "boolean" then
            .ok (.field { name := applyNamingOptionThrift opt thriftName, type := "bool",
                          description := description }, tf)
          else if typesIncludes types "array" then
            match items with
            | none =>
              .ok (.field { name := applyNamingOptionThrift opt thriftName, type := "",
                            description := description }, tf)
            | some itemRef =>
              match ConvertSchemaToThriftType opt itemRef (thriftName ++ "Item") parentPresent tf with
              | .error e => .error e
              | .ok (res, tf) =>
                match res with
                | .field f =>
                  .ok (.field { name := applyNamingOptionThrift opt thriftName, type := f.type,
                                repeated := true, description := description }, tf)
                | .struct m =>
                  .ok (.field { name := applyNamingOptionThrift opt thriftName, type := m.name,
                                repeated := true, description := description },
                       addMessageToThrift tf m)
                | .enum e =>
                  .ok (.field { name := applyNamingOptionThrift opt thriftName, type := e.name,
                                repeated := true, description := description },
                       addEnumToThrift tf e)
                | .union u =>
                  .ok (.field { name := applyNamingOptionThrift opt thriftName, type := u.name,
                                repeated := true, description := description },
                       addUnionToThrift tf u)
          else if typesIncludes types "object" then
            let msgName := if parentPresent then applyNamingOptionThrift opt (ToUpperCase thriftName)
                           else thriftName
            match convertThriftProperties opt properties [] tf with
            | .error e => .error e
            | .ok (fields, tf) =>
              match addProps with
              | none =>
                .ok (.struct { name := msgName, description := description, fields := fields }, tf)
              | some apRef =>
                match ConvertSchemaToThriftType opt apRef (thriftName ++ "AdditionalProperties")
                    parentPresent tf with
                | .error e => .error e
                | .ok (res2, tf) =>
                  let mapValueType := match res2 with
                    | .struct m2 => m2.name
                    | .enum e2 => e2.name
                    | _ => "string"
                  .ok (.struct { name := msgName, description := description,
                                 fields := fields ++
                                   [{ name := "additionalProperties",
                                      type := "map<string, " ++ mapValueType ++ ">" }] }, tf)
          else
            .ok (.field { name := applyNamingOptionThrift opt thriftName, type := "",
                          description := description }, tf)

/-- The property loop of the object case of ConvertSchemaToThriftType: nested
declarations register globally. -/
def convertThriftProperties (opt : ConvertOption) (props : List (String × SchemaRef))
    (fields : List ThriftField) (tf : ThriftFile) :
    Except String (List ThriftField × ThriftFile) :=
  match props with
  | [] => .ok (fields, tf)
  | (propName, propSchema) :: rest =>
    match ConvertSchemaToThriftType opt propSchema propName true tf with
    | .error e => .error e
    | .ok (res, tf) =>
      match res with
      | .field f =>
        convertThriftProperties opt rest (fields ++ [f]) tf
      | .struct nested =>
        let name := if opt.namingOption then ToSnakeCase nested.name else ""
        convertThriftProperties opt rest
          (fields ++ [{ name := name ++ "_field", type := nested.name }])
          (addMessageToThrift tf nested)
      | .enum e =>
        convertThriftProperties opt rest
          (fields ++ [{ name := applyNamingOptionThrift opt propName, type := e.name }])
          (addEnumToThrift tf e)
      | .union u =>
        convertThriftProperties opt rest
          (fields ++ [{ name := applyNamingOptionThrift opt propName, type := u.name }])
          (addUnionToThrift tf u)

/-- handleOneOf (thrift_converter.go): sub-schema k lowered under the name
<thriftName>Option<k+1>; non-field results register globally and contribute a
<name>_field member. -/
def handleOneOfLoop (opt : ConvertOption) (ss : List SchemaRef) (thriftName : String)
    (parentPresent : Bool) (i : Nat) (fields : List ThriftField) (tf : ThriftFile) :
    Except String (List ThriftField × ThriftFile) :=
  match ss with
  | [] => .ok (fields, tf)
  | schemaRef :: rest =>
    let fieldName := thriftName ++ "Option" ++ toString (i + 1)
    match ConvertSchemaToThriftType opt schemaRef fieldName parentPresent tf with
    | .error e => .error e
    | .ok (res, tf) =>
      match res with
      | .field f =>
        handleOneOfLoop opt rest thriftName parentPresent (i + 1) (fields ++ [f]) tf
      | .struct v =>
        handleOneOfLoop opt rest thriftName parentPresent (i + 1)
          (fields ++ [{ name := v.name ++ "_field", type := v.name }]) (addMessageToThrift tf v)
      | .enum v =>
        handleOneOfLoop opt rest thriftName parentPresent (i + 1)
          (fields ++ [{ name := v.name ++ "_field", type := v.name }]) (addEnumToThrift tf v)
      | .union v =>
        handleOneOfLoop opt rest thriftName parentPresent (i + 1)
          (fields ++ [{ name := v.name ++ "_field", type := v.name }]) (addUnionToThrift tf v)

/-- handleAllOf (thrift_converter.go): sub-schema k lowered under the name
<thriftName>Part<k+1>. -/
def handleAllOfLoop (opt : ConvertOption) (ss : List SchemaRef) (thriftName : String)
    (parentPresent : Bool) (i : Nat) (fields : List ThriftField) (tf : ThriftFile) :
    Except String (List ThriftField × ThriftFile) :=
  match ss with
  | [] => .ok (fields, tf)
  | schemaRef :: rest =>
    let fieldName := thriftName ++ "Part" ++ toString (i + 1)
    match ConvertSchemaToThriftType opt schemaRef fieldName parentPresent tf with
    | .error e => .error e
    | .ok (res, tf) =>
      match res with
      | .field f =>
        handleAllOfLoop opt rest thriftName parentPresent (i + 1) (fields ++ [f]) tf
      | .struct v =>
        handleAllOfLoop opt rest thriftName parentPresent (i + 1)
          (fields ++ [{ name := v.name ++ "_field", type := v.name }]) (addMessageToThrift tf v)
      | .enum v =>
        handleAllOfLoop opt rest thriftName parentPresent (i + 1)
          (fields ++ [{ name := v.name ++ "_field", type := v.name }]) (addEnumToThrift tf v)
      | .union v =>
        handleAllOfLoop opt rest thriftName parentPresent (i + 1)
          (fields ++ [{ name := v.name ++ "_field", type := v.name }]) (addUnionToThrift tf v)

/-- handleAnyOf (thrift_converter.go): sub-schema k lowered under the name
<thriftName>Option<k+1>; the result is a ThriftStruct named <thriftName>AnyOf. -/
def handleAnyOfLoop (opt : ConvertOption) (ss : List SchemaRef) (thriftName : String)
    (parentPresent : Bool) (i : Nat) (fields : List ThriftField) (tf : ThriftFile) :
    Except String (List ThriftField × ThriftFile) :=
  match ss with
  | [] => .ok (fields, tf)
  | schemaRef :: rest =>
    let fieldName := thriftName ++ "Option" ++ toString (i + 1)
    match ConvertSchemaToThriftType opt schemaRef fieldName parentPresent tf with
    | .error e => .error e
    | .ok (res, tf) =>
      match res with
      | .field f =>
        handleAnyOfLoop opt rest thriftName parentPresent (i + 1) (fields ++ [f]) tf
      | .struct v =>
        handleAnyOfLoop opt rest thriftName parentPresent (i + 1)
          (fields ++ [{ name := v.name ++ "_field", type := v.name }]) (addMessageToThrift tf v)
      | .enum v =>
        handleAnyOfLoop opt rest thriftName parentPresent (i + 1)
          (fields ++ [{ name := v.name ++ "_field", type := v.name }]) (addEnumToThrift tf v)
      | .union v =>
        handleAnyOfLoop opt rest thriftName parentPresent (i + 1)
          (fields ++ [{ name := v.name ++ "_field", type := v.name }]) (addUnionToThrift tf v)
end

/-- handleOneOf as a whole (union construction around the loop). -/
def handleOneOf (opt : ConvertOption) (ss : List SchemaRef) (thriftName : String)
    (parentPresent : Bool) (tf : ThriftFile) : Except String (ThriftUnion × ThriftFile) :=
  match handleOneOfLoop opt ss thriftName parentPresent 0 [] tf with
  | .error e => .error e
  | .ok (fields, tf) => .ok ({ name := thriftName ++ "OneOf", fields := fields }, tf)

/-- handleAllOf as a whole (struct construction around the loop). -/
def handleAllOf (opt : ConvertOption) (ss : List SchemaRef) (thriftName : String)
    (parentPresent : Bool) (tf : ThriftFile) : Except String (ThriftStruct × ThriftFile) :=
  match handleAllOfLoop opt ss thriftName parentPresent 0 [] tf with
  | .error e => .error e
  | .ok (fields, tf) => .ok ({ name := thriftName ++ "AllOf", fields := fields }, tf)

/-- handleAnyOf as a whole (struct construction around the loop). -/
def handleAnyOf (opt : ConvertOption) (ss : List SchemaRef) (thriftName : String)
    (parentPresent : Bool) (tf : ThriftFile) : Except String (ThriftStruct × ThriftFile) :=
  match handleAnyOfLoop opt ss thriftName parentPresent 0 [] tf with
  | .error e => .error e
  | .ok (fields, tf) => .ok ({ name := thriftName ++ "AnyOf", fields := fields }, tf)

/-- convertComponentsToThriftMessages (thrift_converter.go): iterate the
component schemas in map order, lower each with a nil parent, register the
outcome. -/
def convertComponentsToThriftMessages (opt : ConvertOption)
    (components : List (String × SchemaRef)) (tf : ThriftFile) :
    Except String ThriftFile :=
  match components with
  | [] => .ok tf
  | (name0, schemaRef) :: rest =>
    let name := if opt.namingOption then ToPascaleCase name0 else name0
    match ConvertSchemaToThriftType opt schemaRef name false tf with
    | .error e => .error e
    | .ok (res, tf) =>
      let tf := match res with
        | .field v => addMessageToThrift tf { name := name, fields := [v] }
        | .struct v => addMessageToThrift tf v
        | .enum v => addEnumToThrift tf v
        | .union v => addUnionToThrift tf v
      convertComponentsToThriftMessages opt rest tf

/-- The request-body content loop of the thrift generateRequestMessage. -/
def thriftRequestContentLoop (opt : ConvertOption) (content : List (String × MediaType))
    (fields : List ThriftField) (tf : ThriftFile) :
    Except String (List ThriftField × ThriftFile) :=
  match content with
  | [] => .ok (fields, tf)
  | (mediaTypeStr, mt) :: rest =>
    match mt.schema with
    | none => thriftRequestContentLoop opt rest fields tf
    | some schema =>
      match ConvertSchemaToThriftType opt schema (FormatStr mediaTypeStr) true tf with
      | .error e => .error e
      | .ok (res, tf) =>
        let optionName :=
          if mediaTypeStr = "application/json" then "api.body"
          else if mediaTypeStr = "application/x-www-form-urlencoded" ||
                  mediaTypeStr = "multipart/form-data" then "api.form"
          else ""
        match res with
        | .field v =>
          let v := if opt.apiOption && optionName ≠ "" then
              { v with options := v.options ++ [⟨optionName, goQuote v.name⟩] }
            else v
          thriftRequestContentLoop opt rest (addThriftFieldIfNotExists fields v) tf
        | .struct v =>
          let fields := v.fields.foldl (fun acc field =>
            let field := if opt.apiOption && optionName ≠ "" then
                { field with options := field.options ++ [⟨optionName, goQuote field.name⟩] }
              else field
            addThriftFieldIfNotExists acc field) fields
          thriftRequestContentLoop opt rest fields tf
        | .enum v =>
          let name := if opt.namingOption then ToSnakeCase mediaTypeStr
                      else FormatStr mediaTypeStr
          let newField : ThriftField := { name := name ++ "_field", type := v.name }
          let newField := if opt.apiOption && optionName ≠ "" then
              { newField with options := newField.options ++ [⟨optionName, goQuote v.name⟩] }
            else newField
          thriftRequestContentLoop opt rest (fields ++ [newField]) tf
        | .union v =>
          let name := if opt.namingOption then ToSnakeCase mediaTypeStr
                      else FormatStr mediaTypeStr
          let newField : ThriftField := { name := name ++ "_field", type := v.name }
          let newField := if opt.apiOption && optionName ≠ "" then
              { newField with options := newField.options ++ [⟨optionName, goQuote v.name⟩] }
            else newField
          thriftRequestContentLoop opt rest (fields ++ [newField]) tf

/-- The parameter loop of the thrift generateRequestMessage; note the empty
ThriftEnum case (an enum-typed parameter contributes nothing). -/
def thriftRequestParamsLoop (opt : ConvertOption) (params : List Parameter)
    (fields : List ThriftField) (tf : ThriftFile) :
    Except String (List ThriftField × ThriftFile) :=
  match params with
  | [] => .ok (fields, tf)
  | param :: rest =>
    match param.schema with
    | none => thriftRequestParamsLoop opt rest fields tf
    | some schema =>
      match ConvertSchemaToThriftType opt schema param.name true tf with
      | .error e => .error e
      | .ok (res, tf) =>
        match res with
        | .field v =>
          let v := if opt.apiOption then
              { v with options := v.options ++ [⟨"api." ++ param.inLoc, goQuote param.name⟩] }
            else v
          let v := { v with description := param.description }
          thriftRequestParamsLoop opt rest (addThriftFieldIfNotExists fields v) tf
        | .struct v =>
          let fields := v.fields.foldl (fun acc field =>
            let field := if opt.apiOption then
                { field with options := field.options ++ [⟨"api." ++ param.inLoc, goQuote param.name⟩] }
              else field
            addThriftFieldIfNotExists acc field) fields
          thriftRequestParamsLoop opt rest fields tf
        | .enum _ =>
          thriftRequestParamsLoop opt rest fields tf
        | .union v =>
          let name := if opt.namingOption then ToPascaleCase param.name else param.name
          let newField : ThriftField := { name := name, type := v.name }
          let newField := if opt.apiOption then
              { newField with options := newField.options ++ [⟨"api." ++ param.inLoc, goQuote param.name⟩] }
            else newField
          thriftRequestParamsLoop opt rest (fields ++ [newField]) tf

/-- generateRequestMessage (thrift_converter.go): with neither a body nor
parameters it returns the singleton list [""] and registers nothing (the
include of an empty type is absent from the thrift path). -/
def thriftGenerateRequestMessage (opt : ConvertOption) (op : Operation)
    (methodName : String) (tf : ThriftFile) : Except String (List String × ThriftFile) :=
  let messageName0 := GetMessageName op methodName ("Request")
  let messageName := if opt.namingOption then ToPascaleCase messageName0 else messageName0
  if op.requestBody.isNone && op.parameters.isEmpty then
    .ok ([""], tf)
  else
    let bodyStep : Except String (Option String × List ThriftField × ThriftFile) :=
      match op.requestBody with
      | none => .ok (none, [], tf)
      | some rb =>
        if rb.ref ≠ "" then .ok (some (ExtractMessageNameFromRef rb.ref), [], tf)
        else
          match rb.value with
          | none => .ok (none, [], tf)
          | some body =>
            if body.content.isEmpty then .ok (none, [], tf)
            else
              match thriftRequestContentLoop opt body.content [] tf with
              | .error e => .error e
              | .ok (fields, tf) => .ok (none, fields, tf)
    match bodyStep with
    | .error e => .error e
    | .ok (some refName, _, tf) => .ok ([refName], tf)
    | .ok (none, fields, tf) =>
      match thriftRequestParamsLoop opt op.parameters fields tf with
      | .error e => .error e
      | .ok (fields, tf) =>
        if !fields.isEmpty then
          .ok ([messageName], addMessageToThrift tf { name := messageName, fields := fields })
        else
          .ok ([""], tf)

/-! ## Thrift serializer (generate/thrift_generate.go): no sorting anywhere;
namespaces in map order, declarations in registration order, field numbers by
source position. -/

def goHasPrefix (s pre : String) : Bool := pre.data.isPrefixOf s.data

/-- encodeOption (thrift_generate.go). -/
def thriftEncodeOption (o : IdlOption) : String :=
  if goHasPrefix o.name ("api.") then o.name ++ " = " ++ o.value
  else if goHasPrefix o.name ("openapi.") then o.name ++ " = '" ++ o.value ++ "'"
  else o.name ++ " = " ++ o.value

/-- encodeField (thrift_generate.go): the caller supplies the 1-based index. -/
def thriftEncodeField (f : ThriftField) (index : Nat) (indentLevel : Nat) : String :=
  let indent := repeatStr "    " indentLevel
  let fieldType := if f.repeated then "list<" ++ f.type ++ ">" else f.type
  let optionalFlag := if f.optional then "optional " else ""
  indent ++ toString index ++ ": " ++ optionalFlag ++ fieldType ++ " " ++ f.name ++
  (if f.options.isEmpty then "\n"
   else " (\n" ++
     String.intercalate (",\n") (f.options.map (fun o => indent ++ "    " ++ thriftEncodeOption o)) ++
     "\n" ++ indent ++ ")\n")

/-- The field loop of encodeMessage/encodeUnion: index i+1 in source order. -/
def thriftEncodeFieldsLoop (indentLevel : Nat) : List ThriftField → Nat → String
  | [], _ => ""
  | f :: rest, i =>
    thriftEncodeField f (i + 1) (indentLevel + 1) ++ thriftEncodeFieldsLoop indentLevel rest (i + 1)

/-- encodeMessage (thrift_generate.go): fields numbered by source position. -/
def thriftEncodeMessage (m : ThriftStruct) (indentLevel : Nat) : String :=
  let indent := repeatStr "    " indentLevel
  indent ++ "struct " ++ m.name ++ " \x7b\n" ++
  thriftEncodeFieldsLoop indentLevel m.fields 0 ++
  indent ++ "\x7d\n\n" ++
  (if m.options.isEmpty then ""
   else indent ++ "(" ++ String.intercalate (", ") (m.options.map thriftEncodeOption) ++ ")\n")

/-- encodeUnion (thrift_generate.go). -/
def thriftEncodeUnion (u : ThriftUnion) (indentLevel : Nat) : String :=
  let indent := repeatStr "    " indentLevel
  indent ++ "union " ++ u.name ++ " \x7b\n" ++
  thriftEncodeFieldsLoop indentLevel u.fields 0 ++
  indent ++ "\x7d\n\n"

/-- encodeEnum (thrift_generate.go). -/
def thriftEncodeEnum (e : ThriftEnum) (indentLevel : Nat) : String :=
  let indent := repeatStr "    " indentLevel
  indent ++ "enum " ++ e.name ++ " \x7b\n" ++
  String.join (e.values.map (fun v =>
    let valueStr := v.value
    let enumValueName := if goAtoiOk valueStr then e.name ++ valueStr else valueStr
    indent ++ "  " ++ enumValueName ++ " = " ++ toString v.index ++ ";\n")) ++
  indent ++ "\x7d\n\n"

/-- encodeConstant (thrift_generate.go). -/
def thriftEncodeConstant (c : ThriftConstant) : String :=
  "const " ++ c.type ++ " " ++ c.name ++ " = " ++ c.value ++ ";\n"

/-- encodeMethod (thrift_generate.go). -/
def thriftEncodeMethod (m : ThriftMethod) : String :=
  "    " ++ m.output ++ " " ++ m.name ++ " (" ++
  String.intercalate (", ")
    (m.input.enum.map (fun p => toString (p.1 + 1) ++ ": " ++ p.2 ++ " req")) ++
  ")" ++
  (if m.options.isEmpty then ""
   else " (\n" ++
     String.intercalate (",\n") (m.options.map (fun o => "        " ++ thriftEncodeOption o)) ++
     "\n    )") ++
  "\n"

/-- encodeService (thrift_generate.go). -/
def thriftEncodeService (s : ThriftService) : String :=
  "service " ++ s.name ++ " \x7b\n" ++
  String.join (s.methods.map thriftEncodeMethod) ++
  "\x7d\n\n" ++
  (if s.options.isEmpty then ""
   else "(" ++ String.intercalate (", ") (s.options.map thriftEncodeOption) ++ ")\n")

/-- Generate (thrift_generate.go): namespaces in map order, then includes,
enums, constants, structs, unions, services, all in stored order. -/
def thriftGenerate (tf : ThriftFile) : String :=
  String.join (tf.namespaces.map (fun p => "namespace " ++ p.1 ++ " " ++ p.2 ++ "\n")) ++
  "\n" ++
  String.join (tf.includes.map (fun i => "include \"" ++ i ++ "\"\n")) ++
  (if tf.includes.isEmpty then "" else "\n") ++
  String.join (tf.enums.map (fun e => thriftEncodeEnum e 0)) ++
  String.join (tf.constants.map thriftEncodeConstant) ++
  String.join (tf.structs.map (fun m => thriftEncodeMessage m 0)) ++
  String.join (tf.unions.map (fun u => thriftEncodeUnion u 0)) ++
  String.join (tf.services.map thriftEncodeService)

/-- The component-schema leg of the thrift pipeline followed by serialization:
lowering the component map (in the iteration order given by the list) into an
empty registry and rendering the result. -/
def thriftComponentsPipeline (components : List (String × SchemaRef)) :
    Except String String :=
  match convertComponentsToThriftMessages defaultConvertOption components {} with
  | .error e => .error e
  | .ok tf => .ok (thriftGenerate tf)

deriving instance DecidableEq for Except

/-! ## Order and sorting lemmas for the serializer's name comparisons -/

theorem charToNat_inj {a b : Char} (h : a.toNat = b.toNat) : a = b :=
  Char.ext (UInt32.ext h)

theorem strLtChars_asym : ∀ {a b : List Char},
    strLtChars a b = true → strLtChars b a = false
  | [], [], h => by simp [strLtChars] at h
  | [], _ :: _, _ => by simp [strLtChars]
  | _ :: _, [], h => by simp [strLtChars] at h
  | x :: xs, y :: ys, h => by
    by_cases h1 : x.toNat < y.toNat
    · have h2 : ¬ y.toNat < x.toNat := by omega
      simp [strLtChars, h1, h2]
    · by_cases h2 : y.toNat < x.toNat
      · simp [strLtChars, h1, h2] at h
      · simp only [strLtChars, if_neg h1, if_neg h2] at h ⊢
        exact strLtChars_asym h

theorem strLtChars_eq_of_not_lt : ∀ {a b : List Char},
    strLtChars a b = false → strLtChars b a = false → a = b
  | [], [], _, _ => rfl
  | [], _ :: _, h, _ => by simp [strLtChars] at h
  | _ :: _, [], _, h => by simp [strLtChars] at h
  | x :: xs, y :: ys, h1, h2 => by
    by_cases hxy : x.toNat < y.toNat
    · simp [strLtChars, hxy] at h1
    · by_cases hyx : y.toNat < x.toNat
      · simp [strLtChars, hyx] at h2
      · simp only [strLtChars, if_neg hxy, if_neg hyx] at h1 h2
        have hx : x = y := charToNat_inj (by omega)
        have ht : xs = ys := strLtChars_eq_of_not_lt h1 h2
        rw [hx, ht]

theorem strLtChars_le_trans : ∀ {a b c : List Char},
    strLtChars b a = false → strLtChars c b = false → strLtChars c a = false
  | [], b, c, _, _ => by cases c <;> simp [strLtChars]
  | _ :: _, [], _, h1, _ => by simp [strLtChars] at h1
  | _ :: _, _ :: _, [], _, h2 => by simp [strLtChars] at h2
  | x :: xs, y :: ys, z :: zs, h1, h2 => by
    by_cases hyx : y.toNat < x.toNat
    · simp [strLtChars, hyx] at h1
    · by_cases hzy : z.toNat < y.toNat
      · simp [strLtChars, hzy] at h2
      · have hzx : ¬ z.toNat < x.toNat := by omega
        simp only [strLtChars, if_neg hyx, if_neg hzy, if_neg hzx] at h1 h2 ⊢
        by_cases hxy : x.toNat < y.toNat
        · have hxz : x.toNat < z.toNat := by omega
          simp [hxz]
        · by_cases hyz : y.toNat < z.toNat
          · have hxz : x.toNat < z.toNat := by omega
            simp [hxz]
          · have hxz : ¬ x.toNat < z.toNat := by omega
            simp only [if_neg hxy] at h1
            simp only [if_neg hyz] at h2
            simp [hxz, strLtChars_le_trans h1 h2]

theorem strLtB_asym {s t : String} (h : strLtB s t = true) : strLtB t s = false :=
  strLtChars_asym h

theorem strLtB_antisymm : ∀ {s t : String},
    strLtB t s = false → strLtB s t = false → s = t
  | ⟨_⟩, ⟨_⟩, h1, h2 => congrArg String.mk (strLtChars_eq_of_not_lt h2 h1)

theorem strLtB_le_trans {s t u : String} (h1 : strLtB t s = false)
    (h2 : strLtB u t = false) : strLtB u s = false :=
  strLtChars_le_trans h1 h2

theorem strLtB_self (s : String) : strLtB s s = false := by
  cases h : strLtB s s
  · rfl
  · exact absurd (strLtB_asym h) (by simp [h])

theorem ordInsertLess_perm (less : α → α → Bool) (a : α) :
    ∀ l : List α, (ordInsertLess less a l).Perm (a :: l)
  | [] => List.Perm.refl _
  | b :: l => by
    simp only [ordInsertLess]
    by_cases h : less b a = true
    · simp only [h, if_pos rfl]
      exact ((ordInsertLess_perm less a l).cons b).trans (List.Perm.swap a b l)
    · simp [h]

theorem sortSliceBy_perm (less : α → α → Bool) :
    ∀ l : List α, (sortSliceBy less l).Perm l
  | [] => List.Perm.refl _
  | a :: l =>
    (ordInsertLess_perm less a (sortSliceBy less l)).trans
      ((sortSliceBy_perm less l).cons a)

theorem pairwise_ordInsertLess (less : α → α → Bool)
    (hasym : ∀ x y, less x y = true → less y x = false)
    (htrans : ∀ x y z, less y x = false → less z y = false → less z x = false)
    (a : α) : ∀ l : List α, l.Pairwise (fun x y => less y x = false) →
    (ordInsertLess less a l).Pairwise (fun x y => less y x = false)
  | [], _ => by simp [ordInsertLess]
  | b :: l, hl => by
    rw [List.pairwise_cons] at hl
    simp only [ordInsertLess]
    cases hba : less b a
    · rw [if_neg (by simp), List.pairwise_cons]
      refine ⟨fun x hx => ?_, List.pairwise_cons.mpr hl⟩
      rcases List.mem_cons.mp hx with hx | hx
      · rw [hx]; exact hba
      · exact htrans a b x hba (hl.1 x hx)
    · rw [if_pos rfl, List.pairwise_cons]
      refine ⟨fun x hx => ?_, pairwise_ordInsertLess less hasym htrans a l hl.2⟩
      rcases List.mem_cons.mp ((ordInsertLess_perm less a l).mem_iff.mp hx) with hx2 | hx2
      · rw [hx2]; exact hasym b a hba
      · exact hl.1 x hx2

theorem pairwise_sortSliceBy (less : α → α → Bool)
    (hasym : ∀ x y, less x y = true → less y x = false)
    (htrans : ∀ x y z, less y x = false → less z y = false → less z x = false) :
    ∀ l : List α, (sortSliceBy less l).Pairwise (fun x y => less y x = false)
  | [] => List.Pairwise.nil
  | a :: l =>
    pairwise_ordInsertLess less hasym htrans a _ (pairwise_sortSliceBy less hasym htrans l)

/-- Two lists sorted by a duplicate-free string key and equal up to permutation
are equal. -/
theorem eq_of_perm_sorted_nodupKeys (key : α → String) :
    ∀ (l1 l2 : List α), l1.Perm l2 →
    l1.Pairwise (fun x y => strLtB (key y) (key x) = false) →
    l2.Pairwise (fun x y => strLtB (key y) (key x) = false) →
    (l1.map key).Nodup → l1 = l2
  | [], l2, hp, _, _, _ => (hp.nil_eq).symm ▸ rfl
  | x :: xs, [], hp, _, _, _ => absurd hp.symm (by simp [List.Perm.nil_eq, List.nil_perm])
  | x :: xs, y :: ys, hp, hs1, hs2, hnd => by
    rw [List.pairwise_cons] at hs1 hs2
    have hxy : x = y := by
      have hxmem : x ∈ y :: ys := hp.mem_iff.mp (List.mem_cons_self x xs)
      have hymem : y ∈ x :: xs := hp.symm.mem_iff.mp (List.mem_cons_self y ys)
      rcases List.mem_cons.mp hxmem with h | h
      · exact h
      · have h1 : strLtB (key x) (key y) = false := hs2.1 x h
        rcases List.mem_cons.mp hymem with h' | h'
        · exact h'.symm
        · have h2 : strLtB (key y) (key x) = false := hs1.1 y h'
          have hkeq : key x = key y := strLtB_antisymm h2 h1
          rw [List.map_cons, List.nodup_cons] at hnd
          exact absurd (hkeq ▸ List.mem_map_of_mem key h') hnd.1
    subst hxy
    have htl : xs.Perm ys := hp.cons_inv
    have hnd2 : (xs.map key).Nodup := by
      rw [List.map_cons, List.nodup_cons] at hnd
      exact hnd.2
    rw [eq_of_perm_sorted_nodupKeys key xs ys htl hs1.2 hs2.2 hnd2]

/-- sort.Slice by a string key is a function of the multiset of entries when
the keys are duplicate-free: the registration order does not matter. -/
theorem sortSliceBy_eq_of_perm (key : α → String) (l1 l2 : List α)
    (hp : l1.Perm l2) (hnd : (l1.map key).Nodup) :
    sortSliceBy (fun a b => strLtB (key a) (key b)) l1 =
      sortSliceBy (fun a b => strLtB (key a) (key b)) l2 := by
  have hasym : ∀ x y : α, strLtB (key x) (key y) = true → strLtB (key y) (key x) = false :=
    fun x y h => strLtB_asym h
  have htrans : ∀ x y z : α, strLtB (key y) (key x) = false →
      strLtB (key z) (key y) = false → strLtB (key z) (key x) = false :=
    fun x y z h1 h2 => strLtB_le_trans h1 h2
  refine eq_of_perm_sorted_nodupKeys key _ _ ?_ ?_ ?_ ?_
  · exact (sortSliceBy_perm _ l1).trans (hp.trans (sortSliceBy_perm _ l2).symm)
  · exact pairwise_sortSliceBy _ hasym htrans l1
  · exact pairwise_sortSliceBy _ hasym htrans l2
  · exact (((sortSliceBy_perm (fun a b => strLtB (key a) (key b)) l1).map key).symm).nodup hnd

/-! ## Field-number assignment lemmas (the proto field loop) -/

/-- The numbering the field loop realises: position k in the (already sorted)
field list receives number n + k. -/
def numberFields : List ProtoField → Nat → List (Nat × ProtoField)
  | [], _ => []
  | f :: rest, n => (n, f) :: numberFields rest (n + 1)

theorem stringMk_append (a b : List Char) : String.mk a ++ String.mk b = String.mk (a ++ b) :=
  rfl

theorem stringJoin_cons (s : String) (l : List String) :
    String.join (s :: l) = s ++ String.join l := by
  cases s with
  | mk d =>
    rw [String.join_eq, String.join_eq]
    simp only [List.map_cons, List.flatten_cons]
    exact (stringMk_append d _).symm

theorem encodeProtoFieldsLoop_eq (indent : String) :
    ∀ (fs : List ProtoField) (n : Nat),
    encodeProtoFieldsLoop indent fs n =
      (String.join ((numberFields fs n).map (fun p => encodeProtoField indent p.2 p.1)),
       n + fs.length)
  | [], n => by simp [encodeProtoFieldsLoop, numberFields, String.join]
  | f :: rest, n => by
    rw [encodeProtoFieldsLoop, encodeProtoFieldsLoop_eq indent rest (n + 1)]
    simp only [numberFields, List.map_cons, stringJoin_cons, List.length_cons]
    have harith : n + 1 + rest.length = n + (rest.length + 1) := by omega
    rw [harith]

theorem numberFields_map_snd : ∀ (fs : List ProtoField) (n : Nat),
    (numberFields fs n).map Prod.snd = fs
  | [], _ => rfl
  | f :: rest, n => by
    simp [numberFields, numberFields_map_snd rest (n + 1)]

theorem numberFields_map_fst : ∀ (fs : List ProtoField) (n : Nat),
    (numberFields fs n).map Prod.fst = List.range' n fs.length
  | [], _ => rfl
  | f :: rest, n => by
    simp [numberFields, numberFields_map_fst rest (n + 1), List.range']

/-! ## Registry merge lemmas (addMessageToProto) -/

/-- Registry lookup by declaration name (first match, as the Go loop). -/
def findProtoMessage (pf : ProtoFile) (name : String) : Option ProtoMessage :=
  pf.messages.find? (fun m => m.name = name)

def countMessagesNamed (pf : ProtoFile) (name : String) : Nat :=
  (pf.messages.filter (fun m => m.name = name)).length

theorem mergeAppend_self (getName : α → String) (l : List α) :
    mergeAppend getName l l = l := by
  show l ++ l.filter (fun x => !((l.map getName).contains (getName x))) = l
  have h : l.filter (fun x => !((l.map getName).contains (getName x))) = [] := by
    rw [List.filter_eq_nil_iff]
    intro x hx
    have hmem : getName x ∈ l.map getName := List.mem_map_of_mem getName hx
    have hcont : (l.map getName).contains (getName x) = true := List.elem_iff.mpr hmem
    rw [hcont]
    decide
  rw [h, List.append_nil]

theorem mergeProtoMessage_self (m : ProtoMessage) : mergeProtoMessage m m = m := by
  cases m with
  | mk name fields messages enums oneOfs options description =>
    simp [mergeProtoMessage, ProtoMessage.name, ProtoMessage.fields, ProtoMessage.messages,
      ProtoMessage.enums, ProtoMessage.oneOfs, ProtoMessage.options, ProtoMessage.description,
      mergeAppend_self]

theorem mergeIntoFirst_of_absent :
    ∀ (msgs : List ProtoMessage) (m : ProtoMessage),
    (∀ ex ∈ msgs, ex.name ≠ m.name) → mergeIntoFirst msgs m = msgs ++ [m]
  | [], _, _ => rfl
  | ex :: rest, m, h => by
    rw [mergeIntoFirst, if_neg (h ex (List.mem_cons_self ex rest))]
    rw [mergeIntoFirst_of_absent rest m (fun x hx => h x (List.mem_cons_of_mem ex hx))]
    rfl

theorem mergeIntoFirst_append_of_absent :
    ∀ (msgs tail : List ProtoMessage) (m : ProtoMessage),
    (∀ ex ∈ msgs, ex.name ≠ m.name) →
    mergeIntoFirst (msgs ++ tail) m = msgs ++ mergeIntoFirst tail m
  | [], _, _, _ => rfl
  | ex :: rest, tail, m, h => by
    rw [List.cons_append, mergeIntoFirst, if_neg (h ex (List.mem_cons_self ex rest))]
    rw [mergeIntoFirst_append_of_absent rest tail m
      (fun x hx => h x (List.mem_cons_of_mem ex hx))]
    rfl

theorem find?_append_of_absent_prefix (p : ProtoMessage → Bool) :
    ∀ (msgs tail : List ProtoMessage), (∀ ex ∈ msgs, ¬ p ex) →
    (msgs ++ tail).find? p = tail.find? p
  | [], _, _ => rfl
  | ex :: rest, tail, h => by
    rw [List.cons_append, List.find?]
    have hpx : p ex = false := by
      cases hp : p ex
      · rfl
      · exact absurd hp (h ex (List.mem_cons_self ex rest))
    rw [hpx]
    exact find?_append_of_absent_prefix p rest tail
      (fun x hx => h x (List.mem_cons_of_mem ex hx))

/-! ## Service registration lemmas (methodExistsInService / first-wins) -/

/-- The methods of the service of a given name, empty when absent. -/
def serviceMethods (services : List ProtoService) (serviceName : String) : List ProtoMethod :=
  match services.find? (fun s => s.name = serviceName) with
  | some s => s.methods
  | none => []

/-- First-wins deduplication by method name: keeps each registration whose
name was not seen before. -/
def dedupFirstByNameAux (seen : List String) : List ProtoMethod → List ProtoMethod
  | [] => []
  | m :: rest =>
    if m.name ∈ seen then dedupFirstByNameAux seen rest
    else m :: dedupFirstByNameAux (seen ++ [m.name]) rest

/-- The registrations addressed to one service, in order. -/
def regsFor (serviceName : String) (regs : List (String × ProtoMethod)) : List ProtoMethod :=
  regs.filterMap (fun r => if r.1 = serviceName then some r.2 else none)


theorem methodExists_iff (svc : ProtoService) (mn : String) :
    methodExistsInService svc mn = true ↔ mn ∈ svc.methods.map ProtoMethod.name := by
  simp [methodExistsInService, List.any_eq_true, List.mem_map]

theorem find?_cons_eval (p : ProtoService → Bool) (a : ProtoService) (l : List ProtoService) :
    List.find? p (a :: l) = if p a then some a else List.find? p l := by
  rw [List.find?]
  cases p a <;> simp

theorem serviceMethods_cons (svc : ProtoService) (rest : List ProtoService) (s : String) :
    serviceMethods (svc :: rest) s =
      if svc.name = s then svc.methods else serviceMethods rest s := by
  unfold serviceMethods
  rw [find?_cons_eval]
  by_cases h : svc.name = s
  · simp [h]
  · simp [h]

theorem serviceMethods_register_other :
    ∀ (svcs : List ProtoService) (n : String) (m : ProtoMethod) (s : String), s ≠ n →
    serviceMethods (registerProtoMethod svcs n m) s = serviceMethods svcs s
  | [], n, m, s, hs => by
    have hns : ¬ (n = s) := fun h => hs h.symm
    simp [registerProtoMethod, serviceMethods, List.find?, hns]
  | svc :: rest, n, m, s, hs => by
    rw [registerProtoMethod]
    by_cases h : svc.name = n
    · rw [if_pos h]
      have hne : ¬ (svc.name = s) := fun hc => hs (hc.symm.trans h)
      cases hex : methodExistsInService svc m.name
      · rw [if_neg (by simp)]
        have h1 : serviceMethods (({ svc with methods := svc.methods ++ [m] } : ProtoService) :: rest) s =
            serviceMethods rest s := by
          rw [serviceMethods_cons, if_neg hne]
        have h2 : serviceMethods (svc :: rest) s = serviceMethods rest s := by
          rw [serviceMethods_cons, if_neg hne]
        rw [h1, h2]
      · rw [if_pos rfl]
    · rw [if_neg h]
      by_cases hsvc : svc.name = s
      · have h1 : serviceMethods (svc :: registerProtoMethod rest n m) s = svc.methods := by
          rw [serviceMethods_cons, if_pos hsvc]
        have h2 : serviceMethods (svc :: rest) s = svc.methods := by
          rw [serviceMethods_cons, if_pos hsvc]
        rw [h1, h2]
      · have h1 : serviceMethods (svc :: registerProtoMethod rest n m) s =
            serviceMethods (registerProtoMethod rest n m) s := by
          rw [serviceMethods_cons, if_neg hsvc]
        have h2 : serviceMethods (svc :: rest) s = serviceMethods rest s := by
          rw [serviceMethods_cons, if_neg hsvc]
        rw [h1, h2]
        exact serviceMethods_register_other rest n m s hs

theorem serviceMethods_register_same :
    ∀ (svcs : List ProtoService) (n : String) (m : ProtoMethod),
    serviceMethods (registerProtoMethod svcs n m) n =
      (if m.name ∈ (serviceMethods svcs n).map ProtoMethod.name
       then serviceMethods svcs n else serviceMethods svcs n ++ [m])
  | [], n, m => by
    simp [registerProtoMethod, serviceMethods, List.find?]
  | svc :: rest, n, m => by
    rw [registerProtoMethod]
    by_cases h : svc.name = n
    · rw [if_pos h]
      have hsm : serviceMethods (svc :: rest) n = svc.methods := by
        rw [serviceMethods_cons, if_pos h]
      cases hex : methodExistsInService svc m.name
      · rw [if_neg (by simp), hsm]
        have hmem : ¬ m.name ∈ svc.methods.map ProtoMethod.name := by
          intro hc
          rw [(methodExists_iff svc m.name).mpr hc] at hex
          cases hex
        rw [if_neg hmem]
        have h1 : serviceMethods (({ svc with methods := svc.methods ++ [m] } : ProtoService) :: rest) n =
            svc.methods ++ [m] := by
          rw [serviceMethods_cons, if_pos (show ({ svc with methods := svc.methods ++ [m] } : ProtoService).name = n from h)]
        rw [h1]
      · rw [if_pos rfl, hsm]
        rw [if_pos ((methodExists_iff svc m.name).mp hex)]
    · rw [if_neg h]
      have h1 : serviceMethods (svc :: registerProtoMethod rest n m) n =
          serviceMethods (registerProtoMethod rest n m) n := by
        rw [serviceMethods_cons, if_neg h]
      have h2 : serviceMethods (svc :: rest) n = serviceMethods rest n := by
        rw [serviceMethods_cons, if_neg h]
      rw [h1, h2]
      exact serviceMethods_register_same rest n m

theorem registerProtoOps_methods :
    ∀ (regs : List (String × ProtoMethod)) (svcs : List ProtoService) (s : String),
    serviceMethods (registerProtoOps regs svcs) s =
      serviceMethods svcs s ++
        dedupFirstByNameAux ((serviceMethods svcs s).map ProtoMethod.name) (regsFor s regs)
  | [], svcs, s => by simp [registerProtoOps, dedupFirstByNameAux, regsFor]
  | (n, m) :: rest, svcs, s => by
    have hstep : registerProtoOps ((n, m) :: rest) svcs =
        registerProtoOps rest (registerProtoMethod svcs n m) := rfl
    rw [hstep, registerProtoOps_methods rest (registerProtoMethod svcs n m) s]
    by_cases h : n = s
    · subst h
      rw [serviceMethods_register_same]
      have hregs : regsFor n ((n, m) :: rest) = m :: regsFor n rest := by
        simp [regsFor]
      rw [hregs]
      by_cases hmem : m.name ∈ (serviceMethods svcs n).map ProtoMethod.name
      · rw [if_pos hmem]
        rw [dedupFirstByNameAux, if_pos hmem]
      · rw [if_neg hmem]
        rw [dedupFirstByNameAux, if_neg hmem]
        rw [List.map_append]
        simp [List.append_assoc]
    · have hregs : regsFor s ((n, m) :: rest) = regsFor s rest := by
        simp [regsFor, h]
      rw [hregs, serviceMethods_register_other svcs n m s (fun hc => h hc.symm)]

theorem dedupFirstByNameAux_nodup :
    ∀ (l : List ProtoMethod) (seen : List String),
    ((dedupFirstByNameAux seen l).map ProtoMethod.name).Nodup ∧
    ∀ x ∈ (dedupFirstByNameAux seen l).map ProtoMethod.name, x ∉ seen
  | [], seen => by simp [dedupFirstByNameAux]
  | m :: rest, seen => by
    rw [dedupFirstByNameAux]
    by_cases hmem : m.name ∈ seen
    · rw [if_pos hmem]
      exact dedupFirstByNameAux_nodup rest seen
    · rw [if_neg hmem]
      have ih := dedupFirstByNameAux_nodup rest (seen ++ [m.name])
      rw [List.map_cons, List.nodup_cons]
      refine ⟨⟨fun hc => ?_, ih.1⟩, fun x hx => ?_⟩
      · exact absurd (List.mem_append_right seen (List.mem_singleton.mpr rfl)) (ih.2 _ hc)
      · rcases List.mem_cons.mp hx with hx | hx
        · rw [hx]; exact hmem
        · exact fun hc => ih.2 x hx (List.mem_append_left _ hc)

/-! ## Concrete fixtures used by the claim theorems -/

/-- A plain string schema node (type: string, no format, no enumeration). -/
def plainStringSchemaRef : SchemaRef :=
  .mk "" (some (.mk (some ["string"]) "" [] [] none none [] [] [] ""))

/-- The property "state": a string schema with enumeration ["A", "B"]. -/
def stateSchemaRef : SchemaRef :=
  .mk "" (some (.mk (some ["string"]) "" ["A", "B"] [] none none [] [] [] ""))

/-- The object schema Order with the single property "state". -/
def orderSchemaRef : SchemaRef :=
  .mk "" (some (.mk (some ["object"]) "" [] [("state", stateSchemaRef)] none none [] [] [] ""))

/-- An object schema with two distinct property names that the naming policy
maps to the same field name Ab. -/
def dupObjSchemaRef : SchemaRef :=
  .mk "" (some (.mk (some ["object"]) "" []
    [("ab", plainStringSchemaRef), ("Ab", plainStringSchemaRef)] none none [] [] [] ""))

/-- A schema node carrying only a oneOf combinator (no type, no reference). -/
def oneOfOnlyNode : SchemaRef :=
  .mk "" (some (.mk none "" [] [] none none [plainStringSchemaRef] [] [] ""))

/-- A schema node carrying only an anyOf combinator. -/
def anyOfOnlyNode : SchemaRef :=
  .mk "" (some (.mk none "" [] [] none none [] [plainStringSchemaRef] [] ""))

def jsonStringMediaType : MediaType := { schema := some plainStringSchemaRef }

def jsonStringResponse : Response :=
  { content := [("application/json", jsonStringMediaType)] }

def jsonResponseRef : ResponseRef := { value := some jsonStringResponse }

/-- An operation with two declared non-empty responses, each with a JSON body. -/
def twoRespOp : Operation :=
  { operationID := "getUser",
    responses := some [("200", jsonResponseRef), ("404", jsonResponseRef)] }

def noSchemaParam : Parameter := { name := "x", inLoc := "query", schema := none }

/-- An operation whose request synthesis produces zero fields: a parameter
without a schema and no request body. -/
def zeroFieldOp : Operation := { operationID := "odd", parameters := [noSchemaParam] }

/-- An operation with neither a request body nor parameters. -/
def bareOp : Operation := { operationID := "ping" }

/-- Two component maps equal as maps, given in the two iteration orders. -/
def compA : String × SchemaRef := ("A", plainStringSchemaRef)

def compB : String × SchemaRef := ("B", plainStringSchemaRef)

def componentsAB : List (String × SchemaRef) := [compA, compB]

def componentsBA : List (String × SchemaRef) := [compB, compA]

/-- An operation with an empty operation id and a non-nil, zero-length tag
slice: Go evaluates Tags[0] on it. -/
def emptyTagsOp : Operation := { operationID := "", tags := some [] }

/-! ## Claim theorems -/

/-- C10: Method-name derivation is not total: with an empty operation id and a
non-nil empty tag slice, both GetMethodName (thrift lowering) and
GenerateMethodName (proto lowering) index Tags[0] out of range (modelled as
none); the sibling GetServiceName guards the same access with a length check,
and a nil (rather than empty) tag slice takes the safe path. -/
theorem method_name_derivation_partiality :
    GetMethodName emptyTagsOp ("/users") ("GET") = none ∧
    GenerateMethodName emptyTagsOp ("GET") = none ∧
    GetMethodName { operationID := "", tags := none } ("/users") ("GET") = some ("UsersGet") ∧
    GetServiceName (some []) = "DefaultService" :=
  ⟨rfl, rfl, rfl, rfl⟩

/-- C8 (counterexample): the owning struct does not receive a field named
"state": the property name passes through the naming policy and the only field
of Order is named "State". -/
def loweredObjectFieldNames
    (r : Except String (ProtoResult × List ProtoMessage × List ProtoEnum × List String)) :
    Option (List String) :=
  match r with
  | .ok (.message m, _, _, _) => some (m.fields.map ProtoField.name)
  | _ => none

theorem state_field_name_is_pascal_cased :
    loweredObjectFieldNames
        (ConvertSchemaToProtoType defaultConvertOption orderSchemaRef ("Order") none []) =
      some ["State"] ∧
    (["State"].contains ("state")) = false :=
  ⟨rfl, rfl⟩

/-- C8 (amended): lowering the string schema with enumeration ["A","B"] as
property "state" of object Order produces the Enum OrderState with values
(index 0, "A") and (index 1, "B") in source order, and the owning struct gets
a field of type OrderState whose name is the naming policy's image of "state",
namely "State". -/
theorem order_state_enum_lowering :
    ConvertSchemaToProtoType defaultConvertOption orderSchemaRef ("Order") none [] =
      .ok (.message (.mk ("Order") [{ name := "State", type := "OrderState" }] []
        [{ name := "OrderState", values := [⟨0, "A"⟩, ⟨1, "B"⟩] }] [] [] ""), [], [], []) ∧
    applyNamingOption defaultConvertOption ("state") = "State" ∧
    applyNamingOption defaultConvertOption ("Order" ++ ToUpperFirstLetter ("state")) = "OrderState" :=
  ⟨rfl, rfl, rfl⟩

/-- C4 (counterexample): the proto lowering raises the schema-type error on a
node that has a oneOf combinator (and no type): the proto converter checks the
type before and regardless of combinators. -/
theorem proto_combinator_node_errors :
    ConvertSchemaToProtoType defaultConvertOption oneOfOnlyNode ("N") none [] =
      .error "schema type is required" ∧
    (oneOfOnlyNode.value.map (fun s => s.oneOf.length)) = some 1 :=
  ⟨rfl, rfl⟩


/-- A node with no reference, no type and no combinator, but with properties. -/
def typelessNode : SchemaRef :=
  .mk "" (some (.mk none "" [] [("p", plainStringSchemaRef)] none none [] [] [] ""))

/-- A node with no reference, no type, no combinator and no other content. -/
def typelessEmptyNode : SchemaRef :=
  .mk "" (some (.mk none "" [] [] none none [] [] [] ""))

/-- C4 (amended): the "schema type is required" error is governed by reference
and type presence, not combinators. Proto lowering errors on every
non-reference node whose value or type slot is missing, including nodes that
carry a combinator (the proto converter has no combinator handling); a
reference node never raises it regardless of its value. Thrift lowering errors
on a non-reference node with a missing value, but a node with a value, no
type and no combinator does not error: it becomes a field with empty type;
and a type-less node with a combinator is handled by the combinator path. -/
theorem schema_type_required_characterization :
    (∀ (opt : ConvertOption) (name : String) (parent : Option String) (im : List String),
      ConvertSchemaToProtoType opt (.mk ("") none) name parent im =
        .error "schema type is required" ∧
      ConvertSchemaToProtoType opt typelessNode name parent im =
        .error "schema type is required" ∧
      ConvertSchemaToProtoType opt oneOfOnlyNode name parent im =
        .error "schema type is required" ∧
      ConvertSchemaToProtoType opt (.mk ("a/B") none) name parent im =
        .ok (.field { name := applyNamingOption opt (ExtractMessageNameFromRef ("a/B")),
                      type := ExtractMessageNameFromRef ("a/B") }, [], [], im) ∧
      ConvertSchemaToProtoType opt (.mk ("a/B") (some (.mk none ("") [] [] none none [] [] [] (""))))
          name parent im =
        .ok (.field { name := applyNamingOption opt (ExtractMessageNameFromRef ("a/B")),
                      type := ExtractMessageNameFromRef ("a/B") }, [], [], im)) ∧
    (∀ (opt : ConvertOption) (name : String) (b : Bool) (tf : ThriftFile),
      ConvertSchemaToThriftType opt (.mk ("") none) name b tf =
        .error "schema type is required" ∧
      ConvertSchemaToThriftType opt typelessEmptyNode name b tf =
        .ok (.field { name := applyNamingOptionThrift opt name, type := "",
                      description := "" }, tf) ∧
      ConvertSchemaToThriftType opt oneOfOnlyNode name b tf =
        .ok (.union { name := name ++ "OneOf",
                      fields := [{ name := applyNamingOptionThrift opt
                                     (name ++ "Option" ++ toString (0 + 1)),
                                   type := "string" }] }, tf)) :=
  ⟨fun _ _ _ _ => ⟨rfl, rfl, rfl, rfl, rfl⟩, fun _ _ _ _ => ⟨rfl, rfl, rfl⟩⟩

/-- The fields a run of the combinator loops accumulates over k copies of the
plain string schema: sub-schema number j (1-based) contributes a string field
whose name is the naming-option image of <name><mid><j>. -/
def mkComboFields (name mid : String) : Nat → Nat → List ThriftField
  | _, 0 => []
  | i, k + 1 =>
    { name := applyNamingOptionThrift defaultConvertOption (name ++ mid ++ toString (i + 1)),
      type := "string" } :: mkComboFields name mid (i + 1) k

/-- True exactly on the union alternative of a thrift lowering result. -/
def thriftResultIsUnionB : ThriftResult → Bool
  | .union _ => true
  | _ => false

theorem handleOneOfLoop_plain : ∀ (k i : Nat) (name : String) (fields : List ThriftField)
    (tf : ThriftFile),
    handleOneOfLoop defaultConvertOption (List.replicate k plainStringSchemaRef) name false i fields tf =
      .ok (fields ++ mkComboFields name ("Option") i k, tf)
  | 0, i, name, fields, tf => by simp [handleOneOfLoop, mkComboFields]
  | k + 1, i, name, fields, tf => by
    have hconv : ConvertSchemaToThriftType defaultConvertOption plainStringSchemaRef
        (name ++ "Option" ++ toString (i + 1)) false tf =
        .ok (.field { name := applyNamingOptionThrift defaultConvertOption
                        (name ++ "Option" ++ toString (i + 1)),
                      type := "string", description := "" }, tf) := rfl
    rw [List.replicate_succ, handleOneOfLoop, hconv]
    simp only [handleOneOfLoop_plain k (i + 1) name, mkComboFields, List.append_assoc,
      List.singleton_append]

theorem handleAllOfLoop_plain : ∀ (k i : Nat) (name : String) (fields : List ThriftField)
    (tf : ThriftFile),
    handleAllOfLoop defaultConvertOption (List.replicate k plainStringSchemaRef) name false i fields tf =
      .ok (fields ++ mkComboFields name ("Part") i k, tf)
  | 0, i, name, fields, tf => by simp [handleAllOfLoop, mkComboFields]
  | k + 1, i, name, fields, tf => by
    have hconv : ConvertSchemaToThriftType defaultConvertOption plainStringSchemaRef
        (name ++ "Part" ++ toString (i + 1)) false tf =
        .ok (.field { name := applyNamingOptionThrift defaultConvertOption
                        (name ++ "Part" ++ toString (i + 1)),
                      type := "string", description := "" }, tf) := rfl
    rw [List.replicate_succ, handleAllOfLoop, hconv]
    simp only [handleAllOfLoop_plain k (i + 1) name, mkComboFields, List.append_assoc,
      List.singleton_append]

theorem handleAnyOfLoop_plain : ∀ (k i : Nat) (name : String) (fields : List ThriftField)
    (tf : ThriftFile),
    handleAnyOfLoop defaultConvertOption (List.replicate k plainStringSchemaRef) name false i fields tf =
      .ok (fields ++ mkComboFields name ("Option") i k, tf)
  | 0, i, name, fields, tf => by simp [handleAnyOfLoop, mkComboFields]
  | k + 1, i, name, fields, tf => by
    have hconv : ConvertSchemaToThriftType defaultConvertOption plainStringSchemaRef
        (name ++ "Option" ++ toString (i + 1)) false tf =
        .ok (.field { name := applyNamingOptionThrift defaultConvertOption
                        (name ++ "Option" ++ toString (i + 1)),
                      type := "string", description := "" }, tf) := rfl
    rw [List.replicate_succ, handleAnyOfLoop, hconv]
    simp only [handleAnyOfLoop_plain k (i + 1) name, mkComboFields, List.append_assoc,
      List.singleton_append]

theorem mkComboFields_names : ∀ (k i : Nat) (name mid : String),
    (mkComboFields name mid i k).map (fun f => f.name) =
      (List.range k).map (fun j =>
        applyNamingOptionThrift defaultConvertOption (name ++ mid ++ toString (i + j + 1)))
  | 0, _, _, _ => rfl
  | k + 1, i, name, mid => by
    rw [mkComboFields, List.map_cons, mkComboFields_names k (i + 1) name mid,
        List.range_succ_eq_map, List.map_cons, List.map_map]
    refine congrArg₂ _ (by simp) ?_
    apply List.map_congr_left
    intro j _
    simp only [Function.comp]
    have : i + 1 + j + 1 = i + (j + 1) + 1 := by omega
    rw [this]

theorem mkComboFields_types : ∀ (k i : Nat) (name mid : String),
    (mkComboFields name mid i k).map (fun f => f.type) = List.replicate k ("string")
  | 0, _, _, _ => rfl
  | k + 1, i, name, mid => by
    rw [mkComboFields, List.map_cons, mkComboFields_types k (i + 1) name mid,
        List.replicate_succ]

/-- C5 (amended): in the thrift converter, a oneOf node lowers to a Union named
<name>OneOf, an allOf node to a Struct named <name>AllOf, and an anyOf node to a
Struct (not a Union) named <name>AnyOf; the k-th sub-schema (1-based, source
order) is lowered under the synthesized name <name>Option<k> for oneOf/anyOf and
<name>Part<k> for allOf, here exhibited for any number of plain string
sub-schemas, whose resulting field names are the naming-option images of those
synthesized names. The proto converter has no combinator handling at all. -/
theorem combinator_lowering_option_part_names : ∀ (k : Nat) (name : String) (tf : ThriftFile),
    (handleOneOf defaultConvertOption (List.replicate k plainStringSchemaRef) name false tf =
      .ok ({ name := name ++ "OneOf", fields := mkComboFields name ("Option") 0 k }, tf)) ∧
    (handleAllOf defaultConvertOption (List.replicate k plainStringSchemaRef) name false tf =
      .ok ({ name := name ++ "AllOf", fields := mkComboFields name ("Part") 0 k }, tf)) ∧
    (handleAnyOf defaultConvertOption (List.replicate k plainStringSchemaRef) name false tf =
      .ok ({ name := name ++ "AnyOf", fields := mkComboFields name ("Option") 0 k }, tf)) ∧
    ((mkComboFields name ("Option") 0 k).map (fun f => f.name) =
      (List.range k).map (fun j =>
        applyNamingOptionThrift defaultConvertOption (name ++ "Option" ++ toString (j + 1)))) ∧
    ((mkComboFields name ("Part") 0 k).map (fun f => f.name) =
      (List.range k).map (fun j =>
        applyNamingOptionThrift defaultConvertOption (name ++ "Part" ++ toString (j + 1)))) := by
  intro k name tf
  refine ⟨?_, ?_, ?_, ?_, ?_⟩
  · rw [handleOneOf, handleOneOfLoop_plain k 0 name [] tf]
    rfl
  · rw [handleAllOf, handleAllOfLoop_plain k 0 name [] tf]
    rfl
  · rw [handleAnyOf, handleAnyOfLoop_plain k 0 name [] tf]
    rfl
  · rw [mkComboFields_names k 0 name ("Option")]
    simp
  · rw [mkComboFields_names k 0 name ("Part")]
    simp

/-- C5 (counterexample): lowering an anyOf node does not produce a Union
declaration: the thrift converter returns a Struct named <name>AnyOf. -/
theorem anyOf_lowers_to_struct_not_union :
    (ConvertSchemaToThriftType defaultConvertOption anyOfOnlyNode ("N") false {} =
      .ok (.struct { name := "NAnyOf",
                     fields := [{ name := "NOption1", type := "string" }] }, {})) ∧
    ((match ConvertSchemaToThriftType defaultConvertOption anyOfOnlyNode ("N") false {} with
      | .ok (res, _) => thriftResultIsUnionB res
      | .error _ => false) = false) :=
  ⟨rfl, rfl⟩

/-- C9: method names are unique within every service built by operation
registration from an empty service list: the registered method list is the
first-wins deduplication of the registrations addressed to that service, so its
name list has no duplicates; and a single registration whose method name is
already present in the target service leaves the service unchanged (first
wins, no merge), otherwise it appends the method. -/
theorem service_method_names_unique_first_wins :
    (∀ (regs : List (String × ProtoMethod)) (s : String),
      serviceMethods (registerProtoOps regs []) s =
        dedupFirstByNameAux [] (regsFor s regs) ∧
      ((serviceMethods (registerProtoOps regs []) s).map ProtoMethod.name).Nodup) ∧
    (∀ (svcs : List ProtoService) (n : String) (m : ProtoMethod),
      serviceMethods (registerProtoMethod svcs n m) n =
        if m.name ∈ (serviceMethods svcs n).map ProtoMethod.name
        then serviceMethods svcs n
        else serviceMethods svcs n ++ [m]) := by
  refine ⟨fun regs s => ?_, serviceMethods_register_same⟩
  have h := registerProtoOps_methods regs [] s
  have h0 : serviceMethods [] s = [] := rfl
  rw [h0] at h
  simp only [List.map_nil, List.nil_append] at h
  rw [h]
  exact ⟨rfl, (dedupFirstByNameAux_nodup (regsFor s regs) []).1⟩

def c1MsgA : ProtoMessage := .mk ("A") [] [] [] [] [] ("")

def c1MsgB : ProtoMessage := .mk ("B") [] [] [] [] [] ("")

def c1ProtoFileAB : ProtoFile := { packageName := "p", messages := [c1MsgA, c1MsgB] }

def c1ProtoFileBA : ProtoFile := { packageName := "p", messages := [c1MsgB, c1MsgA] }

/-- C1 (amended): the proto serializer is insensitive to registration order:
two IR files equal in package, imports and options whose message, enum and
service lists are permutations of each other with duplicate-free names emit
byte-identical text (every group is sorted by name before emission). The
thrift pipeline has no such sorting and is order-sensitive. -/
theorem protoGenerate_independent_of_registration_order
    (f1 f2 : ProtoFile)
    (hpkg : f1.packageName = f2.packageName)
    (himp : f1.imports = f2.imports)
    (hopt : f1.options = f2.options)
    (hm : f1.messages.Perm f2.messages)
    (he : f1.enums.Perm f2.enums)
    (hs : f1.services.Perm f2.services)
    (hmn : (f1.messages.map ProtoMessage.name).Nodup)
    (hen : (f1.enums.map ProtoEnum.name).Nodup)
    (hsn : (f1.services.map ProtoService.name).Nodup) :
    protoGenerate f1 = protoGenerate f2 := by
  unfold protoGenerate
  rw [hpkg, himp, hopt,
      sortSliceBy_eq_of_perm ProtoEnum.name _ _ he hen,
      sortSliceBy_eq_of_perm ProtoMessage.name _ _ hm hmn,
      sortSliceBy_eq_of_perm ProtoService.name _ _ hs hsn]

/-- Witness: two concrete proto IR files that differ only in message
registration order serialize to the same text. -/
theorem protoGenerate_independent_witness :
    protoGenerate c1ProtoFileAB = protoGenerate c1ProtoFileBA :=
  protoGenerate_independent_of_registration_order c1ProtoFileAB c1ProtoFileBA
    rfl rfl rfl (List.Perm.swap c1MsgB c1MsgA []) (List.Perm.refl [])
    (List.Perm.refl []) (by decide) (by decide) (by decide)

/-- C1 (counterexample): the thrift pipeline output depends on the component
map's iteration order: the same two component schemas visited in the two
possible orders produce different IDL text, so the whole conversion is not
independent of map iteration order. -/
theorem thriftPipeline_depends_on_iteration_order :
    componentsBA.Perm componentsAB ∧
    thriftComponentsPipeline componentsAB ≠ thriftComponentsPipeline componentsBA :=
  ⟨List.Perm.swap compA compB [], by decide⟩

def c2FieldA : ThriftField := { name := "a", type := "string" }

def c2FieldB : ThriftField := { name := "b", type := "string" }

def c2StructBA : ThriftStruct := { name := "S", fields := [c2FieldB, c2FieldA] }

def c2StructAB : ThriftStruct := { name := "S", fields := [c2FieldA, c2FieldB] }

/-- C2 (counterexample): the thrift serializer does not sort fields before
numbering: a struct whose fields arrive as b, a renders b with number 1 and a
with number 2, so the field numbers follow source order, and permuting the
fields changes the text. -/
theorem thriftEncodeMessage_numbers_by_source_order :
    c2StructBA.fields.Perm c2StructAB.fields ∧
    thriftEncodeMessage c2StructBA 0 ≠ thriftEncodeMessage c2StructAB 0 ∧
    thriftEncodeMessage c2StructBA 0 =
      "struct S \x7b\n    1: string b\n    2: string a\n\x7d\n\n" :=
  ⟨List.Perm.swap c2FieldA c2FieldB [], by decide, by decide⟩

/-- C2 (amended): in the proto serializer the claim holds: the file is emitted
as header, imports, options, then enums, messages and services in that group
order with each group sorted by name; within a message the fields are first
sorted by name and then numbered sequentially, starting at 1; sortSliceBy is a
permutation that leaves consecutive elements in non-decreasing name order; and
the field loop assigns the numbers n, n+1, ... to the already-sorted fields in
order. The thrift serializer instead numbers fields by source position. -/
theorem proto_sorted_emission_sequential_numbers :
    (∀ (f : ProtoFile),
      protoGenerate f =
        "syntax = \"proto3\";\n\n" ++ "package " ++ f.packageName ++ ";\n\n" ++
        String.join (f.imports.map (fun i => "import \"" ++ i ++ "\";\n")) ++
        (if f.imports.isEmpty then "" else "\n") ++
        (if f.options.isEmpty then ""
         else String.join (f.options.map (fun o =>
           "option " ++ o.name ++ " = " ++ o.value ++ ";\n")) ++ "\n") ++
        String.join ((sortSliceBy (fun a b : ProtoEnum => strLtB a.name b.name) f.enums).map
          (fun e => encodeEnum e 0)) ++
        String.join ((sortSliceBy (fun a b : ProtoMessage => strLtB a.name b.name) f.messages).map
          (fun m => encodeMessage m 0)) ++
        String.join ((sortSliceBy (fun a b : ProtoService => strLtB a.name b.name) f.services).map
          encodeProtoService)) ∧
    (∀ (name : String) (fields : List ProtoField) (messages : List ProtoMessage)
       (enums : List ProtoEnum) (oneOfs : List ProtoOneOf) (options : List IdlOption)
       (description : String) (indentLevel : Nat),
      encodeMessage (.mk name fields messages enums oneOfs options description) indentLevel =
        (let indent := repeatStr "  " indentLevel
        let sortedFields := sortSliceBy (fun a b : ProtoField => strLtB a.name b.name) fields
        let fieldsPart := encodeProtoFieldsLoop indent sortedFields 1
        (if indentLevel > 0 then "\n" else "") ++
        (if description ≠ "" then indent ++ "// " ++ description ++ "\n" else "") ++
        indent ++ "message " ++ name ++ " \x7b\n" ++
        (if options.isEmpty then ""
         else indent ++ "  option" ++
           String.join ((sortSliceBy (fun a b : IdlOption => strLtB a.name b.name) options).map
             (fun o => encodeFieldOption o ++ ";\n"))) ++
        fieldsPart.1 ++
        encodeOneOfsLoop (indentLevel + 1) oneOfs fieldsPart.2 ++
        (if enums.isEmpty then ""
         else "\n" ++ String.join (enums.map (fun e => encodeEnum e (indentLevel + 1)))) ++
        encodeMessagesLoop messages (indentLevel + 1) ++
        indent ++ "\x7d\n\n")) ∧
    (∀ (l : List ProtoField),
      (sortSliceBy (fun a b : ProtoField => strLtB a.name b.name) l).Perm l ∧
      List.Pairwise (fun x y => strLtB y.name x.name = false)
        (sortSliceBy (fun a b : ProtoField => strLtB a.name b.name) l)) ∧
    (∀ (indent : String) (fs : List ProtoField) (n : Nat),
      encodeProtoFieldsLoop indent fs n =
        (String.join ((numberFields fs n).map (fun p => encodeProtoField indent p.2 p.1)),
         n + fs.length) ∧
      (numberFields fs n).map Prod.snd = fs ∧
      (numberFields fs n).map Prod.fst = List.range' n fs.length) := by
  refine ⟨fun f => rfl, fun _ _ _ _ _ _ _ _ => rfl, fun l => ⟨sortSliceBy_perm _ l, ?_⟩,
    fun indent fs n => ⟨encodeProtoFieldsLoop_eq indent fs n,
      numberFields_map_snd fs n, numberFields_map_fst fs n⟩⟩
  exact pairwise_sortSliceBy (fun a b : ProtoField => strLtB a.name b.name)
    (fun x y h => strLtB_asym h) (fun x y z h1 h2 => strLtB_le_trans h1 h2) l

/-- The messages of the registry after lowering the duplicate-property object
once and registering the result twice, as (name, field names) pairs. -/
def c3DoubleLoweredNames : Option (List (String × List String)) :=
  match ConvertSchemaToProtoType defaultConvertOption dupObjSchemaRef ("D") none [] with
  | .ok (.message msg, _, _, _) =>
    some ((addMessageToProto (addMessageToProto {} msg) msg).messages.map
      (fun mm => (mm.name, mm.fields.map (fun f : ProtoField => f.name))))
  | _ => none

/-- C3 (counterexample): lowering an object schema with properties "ab" and
"Ab" (distinct names, same camel-case image) and registering it twice leaves
one struct whose field names are Ab, Ab: the pascal-casing of property names
collides before registration, so the resulting field set has duplicate names. -/
theorem duplicate_field_names_after_double_lowering :
    c3DoubleLoweredNames = some [("D", ["Ab", "Ab"])] ∧
    ¬ (["Ab", "Ab"] : List String).Nodup :=
  ⟨rfl, by decide⟩

/-- C3 (amended): the registry merge itself behaves as claimed: merging a
message into an existing one of the same name keeps the existing fields as an
unchanged prefix and appends only incoming fields whose names are absent;
registering a message whose name is new appends it; and registering the same
message twice into a registry that did not contain its name leaves exactly one
message of that name, equal to the registered one. Duplicate field names can
still arise before registration, from the naming policy. -/
theorem addMessageToProto_merge_semantics (pf : ProtoFile) (m ex : ProtoMessage)
    (h : ∀ x ∈ pf.messages, x.name ≠ m.name) :
    (mergeProtoMessage ex m).fields =
      ex.fields ++ m.fields.filter
        (fun f => !((ex.fields.map (fun g : ProtoField => g.name)).contains f.name)) ∧
    (mergeProtoMessage ex m).fields.take ex.fields.length = ex.fields ∧
    (addMessageToProto pf m).messages = pf.messages ++ [m] ∧
    (addMessageToProto (addMessageToProto pf m) m).messages = pf.messages ++ [m] ∧
    findProtoMessage (addMessageToProto (addMessageToProto pf m) m) m.name = some m ∧
    countMessagesNamed (addMessageToProto (addMessageToProto pf m) m) m.name = 1 := by
  have hfields : (mergeProtoMessage ex m).fields =
      ex.fields ++ m.fields.filter
        (fun f => !((ex.fields.map (fun g : ProtoField => g.name)).contains f.name)) := rfl
  have h1 : (addMessageToProto pf m).messages = pf.messages ++ [m] := by
    show mergeIntoFirst pf.messages m = pf.messages ++ [m]
    exact mergeIntoFirst_of_absent pf.messages m h
  have h2 : (addMessageToProto (addMessageToProto pf m) m).messages = pf.messages ++ [m] := by
    show mergeIntoFirst (addMessageToProto pf m).messages m = pf.messages ++ [m]
    rw [h1, mergeIntoFirst_append_of_absent pf.messages [m] m h]
    rw [show mergeIntoFirst [m] m = [mergeProtoMessage m m] from by
      rw [mergeIntoFirst, if_pos rfl]]
    rw [mergeProtoMessage_self]
  refine ⟨hfields, ?_, h1, h2, ?_, ?_⟩
  · rw [hfields, List.take_left]
  · show ((addMessageToProto (addMessageToProto pf m) m).messages).find?
      (fun x => x.name = m.name) = some m
    rw [h2, find?_append_of_absent_prefix _ pf.messages [m]
      (fun x hx => by simp [h x hx])]
    simp [List.find?]
  · show (((addMessageToProto (addMessageToProto pf m) m).messages).filter
      (fun x => x.name = m.name)).length = 1
    rw [h2, List.filter_append]
    have hnil : pf.messages.filter (fun x => decide (x.name = m.name)) = [] := by
      rw [List.filter_eq_nil_iff]
      intro x hx
      simp [h x hx]
    rw [hnil]
    simp [List.filter]

def c3WitnessEx : ProtoMessage := .mk ("X") [] [] [] [] [] ("")

def c3WitnessM : ProtoMessage :=
  .mk ("M") [{ name := "f", type := "string" }] [] [] [] [] ("")

def c3WitnessFile : ProtoFile := { messages := [c3WitnessEx] }

/-- Witness: a concrete registry holding one message X and a registered
message M with one field satisfy the merge-semantics theorem. -/
theorem addMessageToProto_merge_semantics_witness :
    (∀ x ∈ c3WitnessFile.messages, x.name ≠ c3WitnessM.name) ∧
    countMessagesNamed
      (addMessageToProto (addMessageToProto c3WitnessFile c3WitnessM) c3WitnessM)
      c3WitnessM.name = 1 :=
  ⟨by decide, (addMessageToProto_merge_semantics c3WitnessFile c3WitnessM c3WitnessEx
    (by decide)).2.2.2.2.2⟩

def c6BodyField : ProtoField :=
  { name := "ApplicationJson", type := "string",
    options := [{ name := "api.body", value := "\"ApplicationJson\"" }] }

def c6Status200Msg : ProtoMessage := .mk ("GetUserResponse200") [c6BodyField] [] [] [] [] ("")

def c6Status404Msg : ProtoMessage := .mk ("GetUserResponse404") [c6BodyField] [] [] [] [] ("")

def c6WrapperMsg : ProtoMessage :=
  .mk ("GetUserResponse")
    [{ name := "Response200", type := "GetUserResponse200" },
     { name := "Response404", type := "GetUserResponse404" }] [] [] [] [] ("")

def c6ExpectedFile : ProtoFile :=
  { messages := [c6Status200Msg, c6Status404Msg, c6WrapperMsg], imports := [apiProtoFile] }

/-- C6 (amended): the two-response operation getUser lowers to one per-status
message GetUserResponse200 and one GetUserResponse404 (each holding the JSON
body field), plus a wrapper message GetUserResponse with exactly two fields
typed by the per-status messages; the wrapper field names are the pascal-cased
images Response200 and Response404 of the synthesized Response_<status>
names. -/
theorem two_response_wrapper_lowering :
    generateResponseMessage defaultConvertOption twoRespOp {} =
      .ok ("GetUserResponse", c6ExpectedFile) ∧
    (c6WrapperMsg.fields.map (fun f : ProtoField => (f.name, f.type)) =
      [("Response200", "GetUserResponse200"), ("Response404", "GetUserResponse404")]) :=
  ⟨rfl, rfl⟩

/-- The wrapper message's field names produced by response lowering of the
two-response operation. -/
def c6WrapperFieldNames : Option (List String) :=
  match generateResponseMessage defaultConvertOption twoRespOp {} with
  | .ok (name, pf) =>
    (findProtoMessage pf name).map (fun m => m.fields.map (fun f : ProtoField => f.name))
  | .error _ => none

/-- C6 (counterexample): the wrapper struct's fields are not named
Response_200 and Response_404: the converter pascal-cases the synthesized
names, dropping the underscore. -/
theorem wrapper_field_names_not_underscored :
    c6WrapperFieldNames = some ["Response200", "Response404"] ∧
    (["Response200", "Response404"] : List String) ≠ ["Response_200", "Response_404"] ∧
    ToPascaleCase ("Response_200") = "Response200" :=
  ⟨rfl, by decide, rfl⟩

theorem requestParamsLoop_schemaless :
    ∀ (params : List Parameter), (∀ p ∈ params, p.schema = none) →
    ∀ (opt : ConvertOption) (mn : String) (fields : List ProtoField)
      (msgs : List ProtoMessage) (enums : List ProtoEnum) (pf : ProtoFile),
    requestParamsLoop opt mn params fields msgs enums pf = .ok (fields, msgs, enums, pf)
  | [], _, _, _, _, _, _, _ => rfl
  | p :: rest, h, opt, mn, fields, msgs, enums, pf => by
    rw [requestParamsLoop, h p (List.mem_cons_self p rest)]
    exact requestParamsLoop_schemaless rest
      (fun q hq => h q (List.mem_cons_of_mem p hq)) opt mn fields msgs enums pf

/-- C7 (amended): an operation with neither a body nor parameters lowers, in
the proto converter, to the canonical empty type google.protobuf.Empty with
the empty-type import registered; an operation whose request synthesis yields
zero fields instead returns the empty string as its request type and registers
nothing; and the thrift converter returns the empty string (no canonical empty
type, no include) already in the no-body no-parameter case. -/
theorem empty_request_lowering :
    (∀ (opt : ConvertOption) (op : Operation) (pf : ProtoFile),
      op.requestBody = none → op.parameters = [] →
      generateRequestMessage opt op pf = .ok (EmptyMessage, AddProtoImport pf EmptyProtoFile)) ∧
    (∀ (opt : ConvertOption) (op : Operation) (pf : ProtoFile),
      op.requestBody = none → op.parameters ≠ [] →
      (∀ p ∈ op.parameters, p.schema = none) →
      generateRequestMessage opt op pf = .ok ("", pf)) ∧
    (∀ (opt : ConvertOption) (op : Operation) (methodName : String) (tf : ThriftFile),
      op.requestBody = none → op.parameters = [] →
      thriftGenerateRequestMessage opt op methodName tf = .ok ([""], tf)) := by
  refine ⟨fun opt op pf h1 h2 => ?_, fun opt op pf h1 hne hall => ?_,
    fun opt op methodName tf h1 h2 => ?_⟩
  · rw [generateRequestMessage]
    rw [if_pos (by simp [h1, h2])]
  · rw [generateRequestMessage]
    rw [if_neg (by simp [h1]; exact hne)]
    rw [h1]
    simp only []
    rw [requestParamsLoop_schemaless op.parameters hall opt _ [] [] [] pf]
    simp
  · rw [thriftGenerateRequestMessage]
    rw [if_pos (by simp [h1, h2])]

/-- Witness: the bare operation ping and the schema-less-parameter operation
odd instantiate the three branches of the empty-request theorem. -/
theorem empty_request_lowering_witness :
    generateRequestMessage defaultConvertOption bareOp {} =
      .ok (EmptyMessage, AddProtoImport {} EmptyProtoFile) ∧
    generateRequestMessage defaultConvertOption zeroFieldOp {} = .ok ("", {}) ∧
    thriftGenerateRequestMessage defaultConvertOption bareOp ("Ping") {} = .ok ([""], {}) :=
  ⟨empty_request_lowering.1 defaultConvertOption bareOp {} rfl rfl,
   empty_request_lowering.2.1 defaultConvertOption zeroFieldOp {} rfl
     (List.cons_ne_nil noSchemaParam [])
     (fun p hp => by rw [List.mem_singleton.mp hp]; rfl),
   empty_request_lowering.2.2 defaultConvertOption bareOp ("Ping") {} rfl rfl⟩

/-- C7 (counterexample): the zero-field request does not degenerate to the
canonical empty type: the proto converter returns the empty string and
registers no import, and the thrift converter returns the empty string even
for an operation with neither body nor parameters, so no empty-type include is
registered for it. -/
theorem zero_field_request_not_empty_type :
    generateRequestMessage defaultConvertOption zeroFieldOp {} = .ok ("", {}) ∧
    ("" : String) ≠ EmptyMessage ∧
    thriftGenerateRequestMessage defaultConvertOption bareOp ("Ping") {} = .ok ([""], {}) ∧
    (([""] : List String) ≠ [EmptyMessage]) :=
  ⟨rfl, by decide, rfl, by decide⟩
